import Mathlib

/-!
Verification of the readiness core (`src/ext/agoo/ready.c`) of the agoo
HTTP/WebSocket server: the single I/O-thread event-loop manager that
registers connections (Links), refreshes per-tick interest, waits on the
OS (epoll or poll backend), dispatches read/write/error callbacks and
periodically sweeps idle connections.

The embedding is a shallow one.  Heap-allocated `struct _link` nodes are
modelled by a heap function `Nat → Node` (a node id stands for the malloc
pointer; a freed node's fields persist, as the bytes of a freed C chunk do
until reused, which is exactly what the code relies on when it follows
pointers into freed nodes).  The C loops of the form
`for (link = x; NULL != link; link = next) { next = link->next; ... }`
are embedded by the fuel-indexed walker `cWalk`, which saves the `next`
pointer before running the body, as the source does.  Handler callbacks
are opaque C function pointers; their per-tick results are supplied by a
`Behavior` oracle indexed by the Link's context id, and their presence
(NULL-ness of the function pointer) is part of the `AgooHandler` record.
OS nondeterminism (revents, epoll_wait results, syscall errnos) is
supplied by oracles.  Every callback invocation, free, backend syscall
and error-report is recorded in an event trace.

`agoo_err_set` / `agoo_err_no` / `agoo_log_cat` live in err.c / log.c,
which are not part of the sources; they are modelled from the spec
(section 7): an error carries a code (0 = AGOO_ERR_OK; allocation
failures report AGOO_ERR_MEMORY; syscall failures report the errno) and
logging is a visible side effect, recorded in the trace.
-/

namespace Agoo

/-- Poll event bits, as on Linux (`<poll.h>`). -/
def POLLIN : Nat := 0x001

/-- POLLPRI bit. -/
def POLLPRI : Nat := 0x002

/-- POLLOUT bit. -/
def POLLOUT : Nat := 0x004

/-- POLLERR bit. -/
def POLLERR : Nat := 0x008

/-- POLLHUP bit. -/
def POLLHUP : Nat := 0x010

/-- POLLNVAL bit. -/
def POLLNVAL : Nat := 0x020

/-- Epoll event bits, as on Linux (`<sys/epoll.h>`). -/
def EPOLLIN : Nat := 0x001

/-- EPOLLPRI bit. -/
def EPOLLPRI : Nat := 0x002

/-- EPOLLOUT bit. -/
def EPOLLOUT : Nat := 0x004

/-- EPOLLERR bit. -/
def EPOLLERR : Nat := 0x008

/-- EPOLLHUP bit. -/
def EPOLLHUP : Nat := 0x010

/-- EPOLLRDHUP bit. -/
def EPOLLRDHUP : Nat := 0x2000

/-- epoll_ctl op EPOLL_CTL_ADD. -/
def EPOLL_CTL_ADD : Nat := 1

/-- epoll_ctl op EPOLL_CTL_DEL. -/
def EPOLL_CTL_DEL : Nat := 2

/-- epoll_ctl op EPOLL_CTL_MOD. -/
def EPOLL_CTL_MOD : Nat := 3

/-- errno EAGAIN on Linux. -/
def EAGAIN : Nat := 11

/-- Success code.  Modelled from the spec: err.h is not among the sources;
the spec (section 7) names the error kinds OK, MEMORY and syscall-errno
backend errors.  AGOO_ERR_OK is the zero code. -/
def AGOO_ERR_OK : Nat := 0

/-- Allocation-failure code.  Modelled from the spec: err.h is not among
the sources; any fixed nonzero code distinct from AGOO_ERR_OK serves.  We
use ENOMEM's value. -/
def AGOO_ERR_MEMORY : Nat := 12

/-- Rational addition, written through `mkRat` so that it evaluates by
kernel reduction (the library's `Rat.add` is irreducible); `qadd_eq_add`
below proves it is the ordinary `+` of ℚ.  Time is modelled as exact
rationals standing for the `double` seconds of `dtime()`. -/
def qadd (a b : ℚ) : ℚ :=
  mkRat (a.num * (b.den : Int) + b.num * (a.den : Int)) (a.den * b.den)

/-- CHECK_FREQ from ready.c line 21: seconds between liveness sweeps
(0.5, written reducibly). -/
def CHECK_FREQ : ℚ := mkRat 1 2

/-- MAX_WAIT from ready.c line 23: poll/epoll timeout in milliseconds. -/
def MAX_WAIT : Nat := 10

/-- EPOLL_SIZE from ready.c line 26: the epoll_wait event buffer size. -/
def EPOLL_SIZE : Nat := 100

/-- INITIAL_POLL_SIZE from ready.c line 28: initial pollfd array slots. -/
def INITIAL_POLL_SIZE : Nat := 1024

/-- The `agooReadyIO` interest enum a handler's `io` callback returns. -/
inductive ReadyInterest where
  | AGOO_READY_NONE
  | AGOO_READY_IN
  | AGOO_READY_OUT
  | AGOO_READY_BOTH
deriving DecidableEq, Repr

/-- The handler vtable `agooHandler`: which of the optional callbacks are
non-NULL.  (`io` is invoked without a NULL check by the source, so it is
always present.) -/
structure AgooHandler where
  hasRead : Bool
  hasWrite : Bool
  hasError : Bool
  hasCheck : Bool
  hasDestroy : Bool
deriving DecidableEq, Repr

/-- The results the handler callbacks of one Link produce during one tick
(each callback runs at most once per tick per Link in the source, the
use-after-free double invocation apart, which reuses the same value the
way the freed memory still holds the same function pointer and ctx). -/
structure Behavior where
  ioRes : ReadyInterest
  readRes : Bool
  writeRes : Bool
  checkRes : Bool
deriving DecidableEq, Repr

/-- The observable events of a run: handler callback invocations, frees,
backend syscalls and error reporting. -/
inductive Event where
  | callInterest (id : Nat) (res : ReadyInterest)
  | callRead (id : Nat) (res : Bool)
  | callWrite (id : Nat) (res : Bool)
  | callError (id : Nat)
  | callCheck (id : Nat) (res : Bool)
  | callDestroy (id : Nat)
  | freeLink (id : Nat)
  | epollCtl (op : Nat) (fd : Int) (mask : Nat) (errno : Nat)
  | errSet (code : Nat)
  | logErr
  | arrayGrow (cap : Nat)
  | procExit
deriving DecidableEq, Repr

/-- Pointwise heap update (assignment through a node pointer). -/
def hupd {α : Type} (h : Nat → α) (n : Nat) (v : α) : Nat → α :=
  fun m => if m = n then v else h m

/-- The C loop shape `for (link = p; NULL != link; link = next) { next =
link->next; body; }`: the successor is read from the heap before the body
runs, so a body that unlinks the current node does not derail the walk.
`fuel` bounds the number of iterations (the C loop is unbounded; every
use below supplies fuel at least the chain length). -/
def cWalk {σ : Type} (nextOf : σ → Nat → Option Nat) (body : σ → Nat → σ) :
    Nat → σ → Option Nat → σ
  | 0, st, _ => st
  | _ + 1, st, none => st
  | fuel + 1, st, some n => cWalk nextOf body fuel (body st n) (nextOf st n)

/-- The nodes `cWalk` visits, in order. -/
def cWalkVisits {σ : Type} (nextOf : σ → Nat → Option Nat) (body : σ → Nat → σ) :
    Nat → σ → Option Nat → List Nat
  | 0, _, _ => []
  | _ + 1, _, none => []
  | fuel + 1, st, some n => n :: cWalkVisits nextOf body fuel (body st n) (nextOf st n)

end Agoo

namespace Agoo.Poll

/-- `struct _link` for the poll backend (ready.c lines 31-42): intrusive
prev/next pointers, fd, handler; `pp` is the back-pointer into the pollfd
array, modelled as a slot index.  The ctx pointer is the node id itself. -/
structure Node where
  next : Option Nat
  prev : Option Nat
  fd : Int
  handler : AgooHandler
  pp : Option Nat
deriving DecidableEq, Repr

/-- One `struct pollfd` slot. -/
structure Slot where
  fd : Int
  events : Nat
  revents : Nat
deriving DecidableEq, Repr

/-- `struct _agooReady`, poll variant (ready.c lines 44-55), plus the
instrumentation the proofs read: the event trace and the list of freed
node ids.  `cap` is `pend - pa`; `npolled` is the running `pp - pa` write
index of the interest-refresh pass. -/
structure PState where
  heap : Nat → Node
  links : Option Nat
  lcnt : Int
  cap : Nat
  npolled : Nat
  slots : Nat → Slot
  next_check : ℚ
  trace : List Event
  freed : List Nat

/-- Append one event to the trace. -/
def pushT (st : PState) (e : Event) : PState :=
  { st with trace := st.trace ++ [e] }

/-- Successor of a node in the live heap. -/
def PNext (st : PState) (n : Nat) : Option Nat :=
  (st.heap n).next

/-- `ready_remove` (ready.c lines 178-209, poll variant): unlink from the
doubly-linked list, invoke `handler.destroy` when present, free the link,
decrement the count.  The source calls this with a link pointer, never
checking that it is still in the list; calling it on an already-freed
node performs the same pointer surgery on the freed node's remembered
neighbors. -/
def ready_remove (st : PState) (n : Nat) : PState :=
  let node := st.heap n
  let st1 :=
    match node.prev with
    | none => { st with links := node.next }
    | some p => { st with heap := hupd st.heap p { st.heap p with next := node.next } }
  let st2 :=
    match node.next with
    | some nx => { st1 with heap := hupd st1.heap nx { st1.heap nx with prev := node.prev } }
    | none => st1
  let st3 := if node.handler.hasDestroy = true then pushT st2 (.callDestroy n) else st2
  let st4 := pushT { st3 with freed := st3.freed ++ [n] } (.freeLink n)
  { st4 with lcnt := st4.lcnt - 1 }

/-- `agoo_ready_add` (ready.c lines 124-176, poll variant).  `allocOk` is
the outcome of the `link_create` malloc, `reallocOk` of the growth
realloc; `n` is the id of the fresh node.  On allocation failure return
AGOO_ERR_MEMORY without linking.  Otherwise prepend at the head under the
mutex and increment `lcnt`; then, if `pend - pa <= lcnt`, double the slot
array and zero it, and on realloc failure log and exit the process. -/
def agoo_ready_add (allocOk reallocOk : Bool) (fd : Int) (h : AgooHandler) (n : Nat)
    (st : PState) : PState × Nat :=
  if allocOk = false then
    (pushT st (.errSet AGOO_ERR_MEMORY), AGOO_ERR_MEMORY)
  else
    let node : Node := { next := st.links, prev := none, fd := fd, handler := h,
                         pp := (st.heap n).pp }
    let st1 := { st with heap := hupd st.heap n node }
    let st2 :=
      match st.links with
      | some hd => { st1 with heap := hupd st1.heap hd { st1.heap hd with prev := some n } }
      | none => st1
    let st3 := { st2 with links := some n, lcnt := st2.lcnt + 1 }
    if (st3.cap : Int) ≤ st3.lcnt then
      if reallocOk = false then
        (pushT (pushT (pushT st3 (.errSet AGOO_ERR_MEMORY)) .logErr) .procExit,
          AGOO_ERR_MEMORY)
      else
        let cnt := st3.cap * 2
        let zeroSlot : Slot := { fd := 0, events := 0, revents := 0 }
        let st4 := { st3 with cap := cnt, slots := fun _ => zeroSlot }
        (pushT st4 (.arrayGrow cnt), AGOO_ERR_OK)
    else
      (st3, AGOO_ERR_OK)

/-- `agoo_ready_count` (ready.c lines 379-382). -/
def agoo_ready_count (st : PState) : Int :=
  st.lcnt

/-- The interest-refresh body (ready.c lines 296-315): write the next slot
with the link's fd and a zero revents, record the back-pointer, query
`handler.io`, and either install the event mask and advance the write
pointer or, on AGOO_READY_NONE, step the write pointer back (the slot is
dropped, but note that `link->pp` keeps pointing at the dropped slot). -/
def poll_refresh_body (beh : Nat → Behavior) (st : PState) (n : Nat) : PState :=
  let node := st.heap n
  let j := st.npolled
  let st1 := { st with slots := hupd st.slots j { st.slots j with fd := node.fd, revents := 0 } }
  let st2 := { st1 with heap := hupd st1.heap n { node with pp := some j } }
  let res := (beh n).ioRes
  let st3 := pushT st2 (.callInterest n res)
  match res with
  | .AGOO_READY_IN =>
      { st3 with slots := hupd st3.slots j { st3.slots j with events := POLLIN },
                 npolled := j + 1 }
  | .AGOO_READY_OUT =>
      { st3 with slots := hupd st3.slots j { st3.slots j with events := POLLOUT },
                 npolled := j + 1 }
  | .AGOO_READY_BOTH =>
      { st3 with slots := hupd st3.slots j { st3.slots j with events := POLLIN ||| POLLOUT },
                 npolled := j + 1 }
  | .AGOO_READY_NONE => st3

/-- Error/hangup branch of the dispatch body (ready.c lines 344-350). -/
def poll_dispatch_err (st : PState) (n : Nat) (rev : Nat) : PState :=
  let node := st.heap n
  if rev &&& (POLLERR ||| POLLHUP ||| POLLNVAL) ≠ 0 then
    let st1 := if node.handler.hasError = true then pushT st (.callError n) else st
    ready_remove st1 n
  else st

/-- Write branch of the dispatch body (ready.c lines 338-343). -/
def poll_dispatch_wr (beh : Nat → Behavior) (st : PState) (n : Nat) (rev : Nat) : PState :=
  let node := st.heap n
  if rev &&& POLLOUT ≠ 0 ∧ node.handler.hasWrite = true then
    let w := (beh n).writeRes
    let st1 := pushT st (.callWrite n w)
    if w = false then ready_remove st1 n else poll_dispatch_err st1 n rev
  else poll_dispatch_err st n rev

/-- The dispatch body (ready.c lines 326-350): skip a link whose
back-pointer is NULL; otherwise read the slot's revents and run read,
write and error/hangup handling in that order, unregistering on a false
return or on an error bit and skipping the rest (`continue`). -/
def poll_dispatch_body (beh : Nat → Behavior) (st : PState) (n : Nat) : PState :=
  let node := st.heap n
  match node.pp with
  | none => st
  | some j =>
    let rev := (st.slots j).revents
    if rev &&& POLLIN ≠ 0 ∧ node.handler.hasRead = true then
      let r := (beh n).readRes
      let st1 := pushT st (.callRead n r)
      if r = false then ready_remove st1 n else poll_dispatch_wr beh st1 n rev
    else poll_dispatch_wr beh st n rev

/-- The periodic-sweep body (ready.c lines 357-363): when the handler has
a `check`, invoke it and unregister the link on a false return. -/
def sweep_body (beh : Nat → Behavior) (st : PState) (n : Nat) : PState :=
  let node := st.heap n
  if node.handler.hasCheck = true then
    let c := (beh n).checkRes
    let st1 := pushT st (.callCheck n c)
    if c = false then ready_remove st1 n else st1
  else st

/-- Outcome of the `poll` syscall: success hands the OS's revents for each
polled slot index (the poll return value is the number of nonzero
entries); failure hands the errno. -/
inductive PollOutcome where
  | ok (os : Nat → Nat)
  | fail (errno : Nat)

/-- On successful poll, the kernel writes each polled slot's revents. -/
def fillRevents (st : PState) (os : Nat → Nat) (nfds : Nat) : PState :=
  { st with slots := fun j => if j < nfds then { st.slots j with revents := os j } else st.slots j }

/-- `poll`'s return value: how many polled slots carry a nonzero revents. -/
def countReady (os : Nat → Nat) (nfds : Nat) : Nat :=
  ((List.range nfds).filter (fun j => os j ≠ 0)).length

/-- `agoo_ready_go` (ready.c lines 211-368, poll variant): snapshot the
list head under the mutex, rebuild the pollfd array while querying each
handler's `io`, call `poll`; on EAGAIN return OK at once, on another
failure report and return the errno; otherwise dispatch each snapshot
link against its slot's revents (when `poll` reported at least one ready
fd) and finally, when `next_check` has passed, sweep the snapshot with
`handler.check`.  `now` is the `dtime()` read at line 355 and `now2` the
one at line 365. -/
def agoo_ready_go (fuel : Nat) (beh : Nat → Behavior) (outcome : PollOutcome)
    (now now2 : ℚ) (st : PState) : PState × Nat :=
  let links := st.links
  let st1 := { st with npolled := 0 }
  let st2 := cWalk PNext (poll_refresh_body beh) fuel st1 links
  match outcome with
  | .fail errno =>
    if errno = EAGAIN then (st2, AGOO_ERR_OK)
    else (pushT (pushT st2 (.errSet errno)) .logErr, errno)
  | .ok os =>
    let nfds := st2.npolled
    let st3 := fillRevents st2 os nfds
    let i := countReady os nfds
    let st4 := if 0 < i then cWalk PNext (poll_dispatch_body beh) fuel st3 links else st3
    let st5 :=
      if st4.next_check ≤ now then
        let stS := cWalk PNext (sweep_body beh) fuel st4 links
        { stS with next_check := qadd now2 CHECK_FREQ }
      else st4
    (st5, AGOO_ERR_OK)

/-- `agoo_ready_destroy` (ready.c lines 105-122, poll variant): pop each
remaining link off the list, invoke `handler.destroy` when present, free
it; then free the slot array and the manager. -/
def agoo_ready_destroy (fuel : Nat) (st : PState) : PState :=
  match fuel with
  | 0 => st
  | fuel + 1 =>
    match st.links with
    | none => st
    | some n =>
      let node := st.heap n
      let st1 := { st with links := node.next }
      let st2 := if node.handler.hasDestroy = true then pushT st1 (.callDestroy n) else st1
      agoo_ready_destroy fuel (pushT { st2 with freed := st2.freed ++ [n] } (.freeLink n))

/-- The manager `agoo_ready_create` initializes (ready.c lines 83-99),
given the boot-time `dtime()`: empty list, zero count, `next_check` one
CHECK_FREQ ahead, a zeroed slot array of INITIAL_POLL_SIZE slots. -/
def pollInit (boot : ℚ) (heap0 : Nat → Node) : PState :=
  { heap := heap0, links := none, lcnt := 0, cap := INITIAL_POLL_SIZE, npolled := 0,
    slots := fun _ => { fd := 0, events := 0, revents := 0 },
    next_check := qadd boot CHECK_FREQ, trace := [], freed := [] }

/-- The result of `agoo_ready_create` (ready.c lines 75-103, poll
variant): the manager when the manager malloc succeeded, the error code
reported through `err`, whether the slot-array pointer is NULL, and
whether the `memset` at line 98 ran over a NULL pointer. -/
structure CreateRes where
  ready : Option PState
  errCode : Nat
  paIsNull : Bool
  memsetOnNull : Bool

/-- `agoo_ready_create` (ready.c lines 75-103, poll variant): a failed
manager malloc reports AGOO_ERR_MEMORY; otherwise the fields are set up
and the slot array is malloced and memset WITHOUT any check of that
malloc's result — the NULL case proceeds to `memset(NULL, 0, size)`. -/
def agoo_ready_create (mgrAllocOk paAllocOk : Bool) (boot : ℚ) (heap0 : Nat → Node) :
    CreateRes :=
  if mgrAllocOk = false then
    { ready := none, errCode := AGOO_ERR_MEMORY, paIsNull := false, memsetOnNull := false }
  else
    { ready := some (pollInit boot heap0), errCode := AGOO_ERR_OK,
      paIsNull := paAllocOk = false, memsetOnNull := paAllocOk = false }

end Agoo.Poll

namespace Agoo.Epoll

/-- `struct _link` for the epoll backend (ready.c lines 31-42): intrusive
prev/next pointers, fd, handler, and `events`, the cached last-installed
epoll interest mask.  The ctx pointer is the node id itself. -/
structure Node where
  next : Option Nat
  prev : Option Nat
  fd : Int
  handler : AgooHandler
  events : Nat
deriving DecidableEq, Repr

/-- `struct _agooReady`, epoll variant (ready.c lines 44-55), plus the
instrumentation the proofs read. -/
structure EState where
  heap : Nat → Node
  links : Option Nat
  lcnt : Int
  next_check : ℚ
  trace : List Event
  freed : List Nat

/-- Append one event to the trace. -/
def pushT (st : EState) (e : Event) : EState :=
  { st with trace := st.trace ++ [e] }

/-- Successor of a node in the live heap. -/
def ENext (st : EState) (n : Nat) : Option Nat :=
  (st.heap n).next

/-- `ready_remove` (ready.c lines 178-209, epoll variant): unlink from the
list, EPOLL_CTL_DEL the fd (logging on failure), invoke `handler.destroy`
when present, free the link, decrement the count.  `delErrno fd` is the
errno the epoll_ctl delete produces (0 for success). -/
def ready_remove (delErrno : Int → Nat) (st : EState) (n : Nat) : EState :=
  let node := st.heap n
  let st1 :=
    match node.prev with
    | none => { st with links := node.next }
    | some p => { st with heap := hupd st.heap p { st.heap p with next := node.next } }
  let st2 :=
    match node.next with
    | some nx => { st1 with heap := hupd st1.heap nx { st1.heap nx with prev := node.prev } }
    | none => st1
  let e := delErrno node.fd
  let st3 := pushT st2 (.epollCtl EPOLL_CTL_DEL node.fd 0 e)
  let st4 := if e ≠ 0 then pushT st3 .logErr else st3
  let st5 := if node.handler.hasDestroy = true then pushT st4 (.callDestroy n) else st4
  let st6 := pushT { st5 with freed := st5.freed ++ [n] } (.freeLink n)
  { st6 with lcnt := st6.lcnt - 1 }

/-- `agoo_ready_add` (ready.c lines 124-157, epoll variant).  On
allocation failure return AGOO_ERR_MEMORY without linking.  Otherwise
prepend at the head under the mutex, increment `lcnt`, cache EPOLLIN on
the link and EPOLL_CTL_ADD the fd; a failed add reports the errno and
returns it — with the link still linked and counted. -/
def agoo_ready_add (allocOk : Bool) (addErrno : Nat) (fd : Int) (h : AgooHandler)
    (n : Nat) (st : EState) : EState × Nat :=
  if allocOk = false then
    (pushT st (.errSet AGOO_ERR_MEMORY), AGOO_ERR_MEMORY)
  else
    let node : Node := { next := st.links, prev := none, fd := fd, handler := h,
                         events := (st.heap n).events }
    let st1 := { st with heap := hupd st.heap n node }
    let st2 :=
      match st.links with
      | some hd => { st1 with heap := hupd st1.heap hd { st1.heap hd with prev := some n } }
      | none => st1
    let st3 := { st2 with links := some n, lcnt := st2.lcnt + 1 }
    let st4 := { st3 with heap := hupd st3.heap n { st3.heap n with events := EPOLLIN } }
    let st5 := pushT st4 (.epollCtl EPOLL_CTL_ADD fd EPOLLIN addErrno)
    if addErrno ≠ 0 then (pushT st5 (.errSet addErrno), addErrno)
    else (st5, AGOO_ERR_OK)

/-- `agoo_ready_count` (ready.c lines 379-382). -/
def agoo_ready_count (st : EState) : Int :=
  st.lcnt

/-- The interest mask `agoo_ready_go` computes from the handler's `io`
answer (ready.c lines 236-250): AGOO_READY_NONE and any unknown value
leave the freshly zero-initialized `event.events` at 0. -/
def epollMaskOf : ReadyInterest → Nat
  | .AGOO_READY_IN => EPOLLIN
  | .AGOO_READY_OUT => EPOLLOUT
  | .AGOO_READY_BOTH => EPOLLIN ||| EPOLLOUT
  | .AGOO_READY_NONE => 0

/-- The interest-refresh body (ready.c lines 229-257): query `handler.io`,
map it to a mask, and when the mask differs from the cached one issue
EPOLL_CTL_MOD (reporting the errno through `err` on failure — without
aborting) and update the cache. -/
def epoll_refresh_body (beh : Nat → Behavior) (modErrno : Int → Nat)
    (st : EState) (n : Nat) : EState :=
  let node := st.heap n
  let res := (beh n).ioRes
  let st1 := pushT st (.callInterest n res)
  let mask := epollMaskOf res
  if mask ≠ node.events then
    let e := modErrno node.fd
    let st2 := pushT st1 (.epollCtl EPOLL_CTL_MOD node.fd mask e)
    let st3 := if e ≠ 0 then pushT st2 (.errSet e) else st2
    { st3 with heap := hupd st3.heap n { st3.heap n with events := mask } }
  else st1

/-- Error/hangup branch of the dispatch body (ready.c lines 277-283). -/
def epoll_dispatch_err (delErrno : Int → Nat) (st : EState) (n : Nat) (bits : Nat) :
    EState :=
  let node := st.heap n
  if bits &&& (EPOLLERR ||| EPOLLRDHUP ||| EPOLLHUP ||| EPOLLPRI) ≠ 0 then
    let st1 := if node.handler.hasError = true then pushT st (.callError n) else st
    ready_remove delErrno st1 n
  else st

/-- Write branch of the dispatch body (ready.c lines 271-276). -/
def epoll_dispatch_wr (beh : Nat → Behavior) (delErrno : Int → Nat)
    (st : EState) (n : Nat) (bits : Nat) : EState :=
  let node := st.heap n
  if bits &&& EPOLLOUT ≠ 0 ∧ node.handler.hasWrite = true then
    let w := (beh n).writeRes
    let st1 := pushT st (.callWrite n w)
    if w = false then ready_remove delErrno st1 n
    else epoll_dispatch_err delErrno st1 n bits
  else epoll_dispatch_err delErrno st n bits

/-- The dispatch body (ready.c lines 263-283) for one epoll event, whose
data pointer is the link and whose `events` field is `bits`: read, write
and error/hangup handling in that order, unregistering on a false return
or on an error bit and skipping the rest (`continue`). -/
def epoll_dispatch_body (beh : Nat → Behavior) (delErrno : Int → Nat)
    (st : EState) (ev : Nat × Nat) : EState :=
  let n := ev.1
  let bits := ev.2
  let node := st.heap n
  if bits &&& EPOLLIN ≠ 0 ∧ node.handler.hasRead = true then
    let r := (beh n).readRes
    let st1 := pushT st (.callRead n r)
    if r = false then ready_remove delErrno st1 n
    else epoll_dispatch_wr beh delErrno st1 n bits
  else epoll_dispatch_wr beh delErrno st n bits

/-- The periodic-sweep body (ready.c lines 357-363). -/
def sweep_body (beh : Nat → Behavior) (delErrno : Int → Nat)
    (st : EState) (n : Nat) : EState :=
  let node := st.heap n
  if node.handler.hasCheck = true then
    let c := (beh n).checkRes
    let st1 := pushT st (.callCheck n c)
    if c = false then ready_remove delErrno st1 n else st1
  else st

/-- Outcome of the `epoll_wait` syscall: success hands the returned event
buffer, each entry a link pointer (node id) with its ready bits; failure
hands the errno. -/
inductive EpollOutcome where
  | ok (evs : List (Nat × Nat))
  | fail (errno : Nat)

/-- `agoo_ready_go` (ready.c lines 211-368, epoll variant): snapshot the
list head under the mutex, refresh each link's interest (lazy
EPOLL_CTL_MOD), call `epoll_wait`; on ANY negative return — EAGAIN
included — report the errno and return it; otherwise dispatch each
returned event and finally, when `next_check` has passed, sweep the
snapshot with `handler.check`. -/
def agoo_ready_go (fuel : Nat) (beh : Nat → Behavior) (modErrno delErrno : Int → Nat)
    (outcome : EpollOutcome) (now now2 : ℚ) (st : EState) : EState × Nat :=
  let links := st.links
  let st1 := cWalk ENext (epoll_refresh_body beh modErrno) fuel st links
  match outcome with
  | .fail errno =>
    (pushT (pushT st1 (.errSet errno)) .logErr, errno)
  | .ok evs =>
    let st2 := evs.foldl (epoll_dispatch_body beh delErrno) st1
    let st3 :=
      if st2.next_check ≤ now then
        let stS := cWalk ENext (sweep_body beh delErrno) fuel st2 links
        { stS with next_check := qadd now2 CHECK_FREQ }
      else st2
    (st3, AGOO_ERR_OK)

/-- `agoo_ready_destroy` (ready.c lines 105-122, epoll variant). -/
def agoo_ready_destroy (fuel : Nat) (st : EState) : EState :=
  match fuel with
  | 0 => st
  | fuel + 1 =>
    match st.links with
    | none => st
    | some n =>
      let node := st.heap n
      let st1 := { st with links := node.next }
      let st2 := if node.handler.hasDestroy = true then pushT st1 (.callDestroy n) else st1
      agoo_ready_destroy fuel (pushT { st2 with freed := st2.freed ++ [n] } (.freeLink n))

/-- The manager `agoo_ready_create` initializes (ready.c lines 83-91,
epoll variant), given the boot-time `dtime()`. -/
def epollInit (boot : ℚ) (heap0 : Nat → Node) : EState :=
  { heap := heap0, links := none, lcnt := 0, next_check := qadd boot CHECK_FREQ,
    trace := [], freed := [] }

end Agoo.Epoll

namespace Agoo

/-- Is the event a `handler.check` invocation? -/
def isCheckE : Event → Bool
  | .callCheck _ _ => true
  | _ => false

/-- Is the event a dispatch-phase handler invocation (read, write or
error)? -/
def isDispatchCallE : Event → Bool
  | .callRead _ _ => true
  | .callWrite _ _ => true
  | .callError _ => true
  | _ => false

/-- Is the event a `handler.io` interest query? -/
def isInterestE : Event → Bool
  | .callInterest _ _ => true
  | _ => false

/-- Is the event a slot-array growth? -/
def isGrowE : Event → Bool
  | .arrayGrow _ => true
  | _ => false

/-- How many slot-array growths a trace records. -/
def growCount (tr : List Event) : Nat :=
  (tr.filter isGrowE).length

/-- The pointer `ptr` heads a NULL-terminated next-chain visiting exactly
the node ids `l`, under the successor map `nx`. -/
def chainB (nx : Nat → Option Nat) : Option Nat → List Nat → Bool
  | ptr, [] => ptr == none
  | ptr, n :: rest => ptr == some n && chainB nx (nx n) rest

/-- `chainB` plus consistent back-pointers: the first node's `prev` is
`p`, and every later node's `prev` is its predecessor in `l`. -/
def dllB (nx pv : Nat → Option Nat) : Option Nat → Option Nat → List Nat → Bool
  | _, ptr, [] => ptr == none
  | p, ptr, n :: rest => ptr == some n && pv n == p && dllB nx pv (some n) (nx n) rest

/-- The optional node id `p` does not belong to `l`. -/
def outB (p : Option Nat) (l : List Nat) : Bool :=
  match p with
  | none => true
  | some x => !(l.contains x)

/-- A handler exposing every callback. -/
def hAll : AgooHandler :=
  { hasRead := true, hasWrite := true, hasError := true, hasCheck := true,
    hasDestroy := true }

/-- A handler exposing read, check and destroy. -/
def hRCD : AgooHandler :=
  { hasRead := true, hasWrite := false, hasError := false, hasCheck := true,
    hasDestroy := true }

/-- A handler exposing read and destroy only. -/
def hRD : AgooHandler :=
  { hasRead := true, hasWrite := false, hasError := false, hasCheck := false,
    hasDestroy := true }

/-- A handler exposing no optional callback. -/
def hNone : AgooHandler :=
  { hasRead := false, hasWrite := false, hasError := false, hasCheck := false,
    hasDestroy := false }

/-- Uninitialized poll-backend heap memory. -/
def pDead : Poll.Node :=
  { next := none, prev := none, fd := 0, handler := hNone, pp := none }

/-- Uninitialized epoll-backend heap memory. -/
def eDead : Epoll.Node :=
  { next := none, prev := none, fd := 0, handler := hNone, events := 0 }

/-- Per-tick behavior for the C1 failing input: interest IN, read reports
a dead peer (false), the liveness check also reports dead (false). -/
def c1Beh : Nat → Behavior := fun _ =>
  { ioRes := .AGOO_READY_IN, readRes := false, writeRes := true, checkRes := false }

/-- The C1 failing run: register one Link (fd 5, handler with read, check
and destroy), run one tick in which the OS reports POLLIN and the sweep
is due (`next_check` = 1/2 ≤ now = 1), then destroy the manager. -/
def c1Run : Poll.PState :=
  let st0 := Poll.pollInit 0 (fun _ => pDead)
  let st1 := (Poll.agoo_ready_add true true 5 hRCD 0 st0).1
  let st2 := (Poll.agoo_ready_go 10 c1Beh (.ok (fun _ => POLLIN)) 1 1 st1).1
  Poll.agoo_ready_destroy 10 st2

/-- Per-tick behavior for the C3 failing input: Link 0 answers
AGOO_READY_NONE, Link 1 answers AGOO_READY_IN; reads succeed. -/
def c3Beh : Nat → Behavior := fun n =>
  { ioRes := if n = 0 then .AGOO_READY_NONE else .AGOO_READY_IN,
    readRes := true, writeRes := true, checkRes := true }

/-- The C3 failing run: two Links, snapshot order [0, 1] (0 at the head);
Link 0 reports interest NONE, Link 1 reports IN; the OS reports POLLIN on
the single polled slot (slot 0, which Link 1 filled after Link 0 was
stepped back over); no sweep (now = 0 < next_check). -/
def c3Run : Poll.PState :=
  let st0 := Poll.pollInit 0 (fun _ => pDead)
  let st1 := (Poll.agoo_ready_add true true 6 hRD 1 st0).1
  let st2 := (Poll.agoo_ready_add true true 5 hRD 0 st1).1
  (Poll.agoo_ready_go 10 c3Beh (.ok (fun j => if j = 0 then POLLIN else 0)) 0 0 st2).1

/-- Behavior answering AGOO_READY_NONE. -/
def noneBeh : Nat → Behavior := fun _ =>
  { ioRes := .AGOO_READY_NONE, readRes := true, writeRes := true, checkRes := true }

/-- Behavior answering AGOO_READY_OUT with all callbacks succeeding. -/
def outBeh : Nat → Behavior := fun _ =>
  { ioRes := .AGOO_READY_OUT, readRes := true, writeRes := true, checkRes := true }

/-- Behavior answering AGOO_READY_IN with all callbacks succeeding. -/
def okBeh : Nat → Behavior := fun _ =>
  { ioRes := .AGOO_READY_IN, readRes := true, writeRes := true, checkRes := true }

/-- The epoll manager right after registering one Link with fd 5: the
Link's cached interest mask is EPOLLIN. -/
def c4St : Epoll.EState :=
  (Epoll.agoo_ready_add true 0 5 hRD 0 (Epoll.epollInit 0 (fun _ => eDead))).1

/-- The C4 counterexample run: one tick on `c4St` in which the Link
answers AGOO_READY_NONE; epoll_wait returns no events; no sweep. -/
def c4Run : Epoll.EState :=
  (Epoll.agoo_ready_go 10 noneBeh (fun _ => 0) (fun _ => 0) (.ok []) 0 0 c4St).1

/-- The C5 counterexample run: an epoll tick on an empty manager whose
epoll_wait fails with EAGAIN. -/
def c5Run : Epoll.EState × Nat :=
  Epoll.agoo_ready_go 10 okBeh (fun _ => 0) (fun _ => 0) (.fail EAGAIN) 0 0
    (Epoll.epollInit 0 (fun _ => eDead))

/-- The events `ready_remove` (poll variant) appends for link `n`. -/
def removeTrace (h : AgooHandler) (n : Nat) : List Event :=
  (if h.hasDestroy = true then [Event.callDestroy n] else []) ++ [Event.freeLink n]

/-- The events the error/hangup branch of the poll dispatch body appends. -/
def pollErrTrace (h : AgooHandler) (n rev : Nat) : List Event :=
  if rev &&& (POLLERR ||| POLLHUP ||| POLLNVAL) ≠ 0 then
    (if h.hasError = true then [Event.callError n] else []) ++ removeTrace h n
  else []

/-- The events the write-then-error part of the poll dispatch body appends. -/
def pollWrTrace (h : AgooHandler) (b : Behavior) (n rev : Nat) : List Event :=
  if rev &&& POLLOUT ≠ 0 ∧ h.hasWrite = true then
    Event.callWrite n b.writeRes ::
      (if b.writeRes = false then removeTrace h n else pollErrTrace h n rev)
  else pollErrTrace h n rev

/-- The events the whole poll dispatch body appends for one link. -/
def pollBodyTrace (h : AgooHandler) (b : Behavior) (pp : Option Nat) (rev n : Nat) :
    List Event :=
  match pp with
  | none => []
  | some _ =>
    if rev &&& POLLIN ≠ 0 ∧ h.hasRead = true then
      Event.callRead n b.readRes ::
        (if b.readRes = false then removeTrace h n else pollWrTrace h b n rev)
    else pollWrTrace h b n rev

/-- Whether the poll dispatch body unregisters its link. -/
def pollBodyRemoves (h : AgooHandler) (b : Behavior) (pp : Option Nat) (rev : Nat) : Bool :=
  match pp with
  | none => false
  | some _ =>
    if rev &&& POLLIN ≠ 0 ∧ h.hasRead = true ∧ b.readRes = false then true
    else if rev &&& POLLOUT ≠ 0 ∧ h.hasWrite = true ∧ b.writeRes = false then true
    else decide (rev &&& (POLLERR ||| POLLHUP ||| POLLNVAL) ≠ 0)

/-- The events `ready_remove` (epoll variant) appends for link `n` with
fd `fd`, when the EPOLL_CTL_DEL produces errno `delE`. -/
def removeTraceE (h : AgooHandler) (fd : Int) (delE : Nat) (n : Nat) : List Event :=
  [Event.epollCtl EPOLL_CTL_DEL fd 0 delE] ++ (if delE ≠ 0 then [Event.logErr] else [])
    ++ (if h.hasDestroy = true then [Event.callDestroy n] else []) ++ [Event.freeLink n]

/-- The events the error/hangup branch of the epoll dispatch body appends. -/
def epollErrTrace (h : AgooHandler) (fd : Int) (delE : Nat) (n bits : Nat) : List Event :=
  if bits &&& (EPOLLERR ||| EPOLLRDHUP ||| EPOLLHUP ||| EPOLLPRI) ≠ 0 then
    (if h.hasError = true then [Event.callError n] else []) ++ removeTraceE h fd delE n
  else []

/-- The events the write-then-error part of the epoll dispatch body appends. -/
def epollWrTrace (h : AgooHandler) (b : Behavior) (fd : Int) (delE : Nat) (n bits : Nat) :
    List Event :=
  if bits &&& EPOLLOUT ≠ 0 ∧ h.hasWrite = true then
    Event.callWrite n b.writeRes ::
      (if b.writeRes = false then removeTraceE h fd delE n else epollErrTrace h fd delE n bits)
  else epollErrTrace h fd delE n bits

/-- The events the whole epoll dispatch body appends for one event. -/
def epollBodyTrace (h : AgooHandler) (b : Behavior) (fd : Int) (delE : Nat) (n bits : Nat) :
    List Event :=
  if bits &&& EPOLLIN ≠ 0 ∧ h.hasRead = true then
    Event.callRead n b.readRes ::
      (if b.readRes = false then removeTraceE h fd delE n else epollWrTrace h b fd delE n bits)
  else epollWrTrace h b fd delE n bits

/-- Whether the epoll dispatch body unregisters its link. -/
def epollBodyRemoves (h : AgooHandler) (b : Behavior) (bits : Nat) : Bool :=
  if bits &&& EPOLLIN ≠ 0 ∧ h.hasRead = true ∧ b.readRes = false then true
  else if bits &&& EPOLLOUT ≠ 0 ∧ h.hasWrite = true ∧ b.writeRes = false then true
  else decide (bits &&& (EPOLLERR ||| EPOLLRDHUP ||| EPOLLHUP ||| EPOLLPRI) ≠ 0)

/-- A concrete poll manager for witnesses: one Link (id 0, fd 7, every
callback present, back-pointer on slot 0) whose slot reports readable,
writable and error at once. -/
def c2St : Poll.PState :=
  { heap := fun _ => { next := none, prev := none, fd := 7, handler := hAll, pp := some 0 },
    links := some 0, lcnt := 1, cap := 1024, npolled := 1,
    slots := fun _ => { fd := 7, events := POLLIN, revents := POLLIN ||| POLLOUT ||| POLLERR },
    next_check := 0, trace := [], freed := [] }

/-- A concrete epoll manager for witnesses: one Link, id 0, fd 7, every
callback present. -/
def c2StE : Epoll.EState :=
  { heap := fun _ => { next := none, prev := none, fd := 7, handler := hAll, events := EPOLLIN },
    links := some 0, lcnt := 1, next_check := 0, trace := [], freed := [] }

/-- Behavior whose read succeeds and whose write fails. -/
def c2Beh : Nat → Behavior := fun _ =>
  { ioRes := .AGOO_READY_BOTH, readRes := true, writeRes := false, checkRes := true }

/-- A manager-lifetime operation: a register call (with the outcomes of
its link malloc and its EPOLL_CTL_ADD) or an I/O-thread unregistration. -/
inductive MOp where
  | reg (allocOk : Bool) (addErrno : Nat) (fd : Int) (h : AgooHandler) (n : Nat)
  | unreg (n : Nat)

/-- Run a sequence of register/unregister operations on an epoll manager. -/
def runOps (delErrno : Int → Nat) (st : Epoll.EState) : List MOp → Epoll.EState
  | [] => st
  | .reg a e fd h n :: ops => runOps delErrno (Epoll.agoo_ready_add a e fd h n st).1 ops
  | .unreg n :: ops => runOps delErrno (Epoll.ready_remove delErrno st n) ops

/-- Net count change an operation sequence causes: +1 per register whose
link allocation succeeded (whatever the backend add returned), -1 per
unregistration. -/
def linkedDelta : List MOp → Int
  | [] => 0
  | .reg true _ _ _ _ :: ops => 1 + linkedDelta ops
  | .reg false _ _ _ _ :: ops => linkedDelta ops
  | .unreg _ :: ops => -1 + linkedDelta ops

/-- Register fds 0 .. N-1 in order on a fresh poll manager (the node id
is the fd index), every allocation succeeding. -/
def addN : Nat → Poll.PState
  | 0 => Poll.pollInit 0 (fun _ => pDead)
  | k + 1 => (Poll.agoo_ready_add true true (k : Int) hAll k (addN k)).1

/-- Per-tick behavior for the C7 counterexample: every Link wants IN; Link 1's
read returns false (so dispatch unregisters it); check returns true. -/
def c7Beh : Nat → Behavior := fun n =>
  { ioRes := .AGOO_READY_IN, readRes := n != 1, writeRes := true, checkRes := true }

/-- C7 counterexample tick-start state: two Links with read/check/destroy
handlers, snapshot chain [0, 1]. -/
def c7Pre : Poll.PState :=
  let st0 := Poll.pollInit 0 (fun _ => pDead)
  let st1 := (Poll.agoo_ready_add true true 6 hRCD 1 st0).1
  (Poll.agoo_ready_add true true 5 hRCD 0 st1).1

/-- One tick from `c7Pre` with the sweep due: the OS reports POLLIN only on
Link 1's slot, so dispatch unregisters Link 1; the sweep then walks the stale
snapshot and never reaches Link 1. -/
def c7Run : Poll.PState :=
  (Poll.agoo_ready_go 10 c7Beh (.ok (fun j => if j = 1 then POLLIN else 0)) 1 1 c7Pre).1

end Agoo


namespace Agoo

theorem cWalk_pres {σ α : Type} (f : σ → α) (nextOf : σ → Nat → Option Nat)
    (body : σ → Nat → σ) (hb : ∀ st n, f (body st n) = f st) :
    ∀ (fuel : Nat) (st : σ) (ptr : Option Nat), f (cWalk nextOf body fuel st ptr) = f st := by
  intro fuel
  induction fuel with
  | zero => intro st ptr; rfl
  | succ m ih =>
    intro st ptr
    cases ptr with
    | none => rfl
    | some n => rw [cWalk, ih, hb]

theorem cWalk_trace {σ γ : Type} (tr : σ → List γ) (nextOf : σ → Nat → Option Nat)
    (body : σ → Nat → σ) (p : γ → Prop)
    (hb : ∀ st n, ∃ δ, tr (body st n) = tr st ++ δ ∧ ∀ e ∈ δ, p e) :
    ∀ (fuel : Nat) (st : σ) (ptr : Option Nat),
      ∃ Δ, tr (cWalk nextOf body fuel st ptr) = tr st ++ Δ ∧ ∀ e ∈ Δ, p e := by
  intro fuel
  induction fuel with
  | zero => intro st ptr; exact ⟨[], by simp [cWalk], by simp⟩
  | succ m ih =>
    intro st ptr
    cases ptr with
    | none => exact ⟨[], by simp [cWalk], by simp⟩
    | some n =>
      obtain ⟨δ1, h1, hp1⟩ := hb st n
      obtain ⟨δ2, h2, hp2⟩ := ih (body st n) (nextOf st n)
      refine ⟨δ1 ++ δ2, ?_, ?_⟩
      · rw [cWalk, h2, h1, List.append_assoc]
      · intro e he
        rcases List.mem_append.1 he with h | h
        · exact hp1 e h
        · exact hp2 e h

theorem qadd_eq_add (a b : ℚ) : qadd a b = a + b := by
  rw [qadd, Rat.add_def']

theorem CHECK_FREQ_eq_half : CHECK_FREQ = 1 / 2 := by
  rw [CHECK_FREQ, Rat.mkRat_eq_div]
  norm_num

/-- C1: the claim that every registered Link sees exactly one
`handler.destroy` call and is never destroyed twice FAILS on the code.
In `c1Run` a single Link (id 0) is registered; during the tick its `read`
returns false, so dispatch unregisters and frees it; the periodic sweep
of the same tick then walks the tick-start snapshot, which still reaches
the freed Link, invokes its `check` (use-after-free), gets false and runs
`ready_remove` again: `handler.destroy` runs twice, the Link is freed
twice, and the live count ends at -1. -/
theorem C1_destroy_invoked_twice :
    c1Run.trace.count (.callDestroy 0) = 2 ∧ c1Run.freed = [0, 0] ∧
    Poll.agoo_ready_count c1Run = -1 := by
  decide

/-- C3: code bug at the failing input.  In `c3Run` the snapshot order is
[Link 0, Link 1]; Link 0 answers AGOO_READY_NONE, so its slot is omitted
(the write pointer steps back and `npolled` ends at 1) — but its
back-pointer is NOT cleared: it still holds slot 0, the same slot Link 1
then fills.  When the OS reports POLLIN on slot 0, dispatch does not skip
Link 0: it invokes Link 0's `read` on Link 1's revents. -/
theorem C3_none_interest_link_still_dispatched :
    Event.callInterest 0 .AGOO_READY_NONE ∈ c3Run.trace ∧
    Event.callRead 0 true ∈ c3Run.trace ∧
    (c3Run.heap 0).pp = some 0 ∧ (c3Run.heap 1).pp = some 0 ∧ c3Run.npolled = 1 := by
  decide

/-- C10: in the poll backend, `agoo_ready_create` does not check the
slot-array malloc: when that allocation fails (and the manager malloc
succeeded), create still returns a manager, reports AGOO_ERR_OK rather
than AGOO_ERR_MEMORY, and the memset at ready.c line 98 runs over the
NULL pointer. -/
theorem C10_create_missing_null_check (boot : ℚ) (heap0 : Nat → Poll.Node) :
    (Poll.agoo_ready_create true false boot heap0).ready = some (Poll.pollInit boot heap0) ∧
    (Poll.agoo_ready_create true false boot heap0).errCode = AGOO_ERR_OK ∧
    (Poll.agoo_ready_create true false boot heap0).errCode ≠ AGOO_ERR_MEMORY ∧
    (Poll.agoo_ready_create true false boot heap0).paIsNull = true ∧
    (Poll.agoo_ready_create true false boot heap0).memsetOnNull = true := by
  refine ⟨rfl, rfl, ?_, rfl, rfl⟩
  simp [Poll.agoo_ready_create, AGOO_ERR_OK, AGOO_ERR_MEMORY]

/-- C4 counterexample: after registration the Link's cached epoll mask is
EPOLLIN; a tick in which its `io` answers AGOO_READY_NONE issues
EPOLL_CTL_MOD with mask 0 and rewrites the cached mask to 0 — the claim
that NONE leaves the last-installed interest in place (no MOD, cache
unchanged) is false. -/
theorem C4_epoll_none_counterexample :
    (c4St.heap 0).events = EPOLLIN ∧
    Event.epollCtl EPOLL_CTL_MOD 5 0 0 ∈ c4Run.trace ∧
    (c4Run.heap 0).events = 0 := by
  decide

/-- C5 counterexample: an epoll tick whose `epoll_wait` fails with EAGAIN
returns EAGAIN (not AGOO_ERR_OK) and records the error — the claim that
both backends return OK on EAGAIN is false. -/
theorem C5_wait_eagain_counterexample :
    c5Run.2 = EAGAIN ∧ c5Run.2 ≠ AGOO_ERR_OK ∧
    Event.errSet EAGAIN ∈ c5Run.1.trace ∧ Event.logErr ∈ c5Run.1.trace := by
  decide

/-- C4 as amended: in the epoll backend an AGOO_READY_NONE answer maps to
interest mask 0, so when the cached mask is nonzero the code DOES issue
EPOLL_CTL_MOD with mask 0 and rewrites the cache to 0 (quiescing the fd);
only when the cached mask was already 0 is no MOD issued and the Link
left untouched apart from the `io` query. -/
theorem C4_epoll_none_amended (st : Epoll.EState) (n : Nat) (beh : Nat → Behavior)
    (modErrno : Int → Nat) (hio : (beh n).ioRes = .AGOO_READY_NONE) :
    (((Epoll.epoll_refresh_body beh modErrno st n).heap n).events = 0) ∧
    ((st.heap n).events ≠ 0 →
      Event.epollCtl EPOLL_CTL_MOD (st.heap n).fd 0 (modErrno (st.heap n).fd) ∈
        (Epoll.epoll_refresh_body beh modErrno st n).trace) ∧
    ((st.heap n).events = 0 →
      Epoll.epoll_refresh_body beh modErrno st n =
        Epoll.pushT st (.callInterest n .AGOO_READY_NONE)) := by
  by_cases h : (st.heap n).events = 0
  · refine ⟨?_, fun hc => absurd h hc, fun _ => ?_⟩
    · simp [Epoll.epoll_refresh_body, hio, Epoll.epollMaskOf, h, Epoll.pushT]
    · simp [Epoll.epoll_refresh_body, hio, Epoll.epollMaskOf, h]
  · refine ⟨?_, fun _ => ?_, fun hc => absurd hc h⟩
    · simp [Epoll.epoll_refresh_body, hio, Epoll.epollMaskOf, Ne.symm h, Epoll.pushT, hupd]
    · by_cases he : modErrno (st.heap n).fd = 0 <;>
        simp [Epoll.epoll_refresh_body, hio, Epoll.epollMaskOf, Ne.symm h, Epoll.pushT, he]

/-- Witness for C4: the amended statement evaluated on the concrete
manager `c4St`, whose single Link has cached mask EPOLLIN. -/
theorem C4_epoll_none_witness :
    (((Epoll.epoll_refresh_body noneBeh (fun _ => 0) c4St 0).heap 0).events = 0) ∧
    ((c4St.heap 0).events ≠ 0 →
      Event.epollCtl EPOLL_CTL_MOD (c4St.heap 0).fd 0 ((fun _ => (0 : Nat)) (c4St.heap 0).fd) ∈
        (Epoll.epoll_refresh_body noneBeh (fun _ => 0) c4St 0).trace) ∧
    ((c4St.heap 0).events = 0 →
      Epoll.epoll_refresh_body noneBeh (fun _ => 0) c4St 0 =
        Epoll.pushT c4St (.callInterest 0 .AGOO_READY_NONE)) :=
  C4_epoll_none_amended c4St 0 noneBeh (fun _ => 0) rfl

theorem poll_refresh_body_trace (beh : Nat → Behavior) (st : Poll.PState) (n : Nat) :
    ∃ δ, (Poll.poll_refresh_body beh st n).trace = st.trace ++ δ ∧
      ∀ e ∈ δ, isInterestE e = true := by
  refine ⟨[.callInterest n ((beh n).ioRes)], ?_, by simp [isInterestE]⟩
  rcases h : (beh n).ioRes <;>
    simp [Poll.poll_refresh_body, Poll.pushT, h]

theorem poll_refresh_body_pres (beh : Nat → Behavior) (st : Poll.PState) (n : Nat) :
    ((Poll.poll_refresh_body beh st n).next_check = st.next_check) ∧
    ((Poll.poll_refresh_body beh st n).freed = st.freed) ∧
    ((Poll.poll_refresh_body beh st n).lcnt = st.lcnt) ∧
    ((Poll.poll_refresh_body beh st n).cap = st.cap) ∧
    (∀ m, Poll.PNext (Poll.poll_refresh_body beh st n) m = Poll.PNext st m) := by
  rcases h : (beh n).ioRes <;>
    simp [Poll.poll_refresh_body, Poll.pushT, h, Poll.PNext, hupd] <;>
    intro m <;> split <;> simp_all

/-- C5 as amended: only the poll backend treats a signal-interrupted wait
(errno EAGAIN) as a successful empty tick — it returns AGOO_ERR_OK with
no dispatches, no unregistration and no error recorded (only the `io`
interest queries of the refresh pass happened), and any other negative
poll return records the error, logs it and returns the errno.  The epoll
backend has no EAGAIN case: EVERY negative epoll_wait return, EAGAIN
included, records the error, logs it and returns the errno. -/
theorem C5_wait_eagain_amended :
    (∀ (fuel : Nat) (beh : Nat → Behavior) (now now2 : ℚ) (st : Poll.PState),
      (Poll.agoo_ready_go fuel beh (.fail EAGAIN) now now2 st).2 = AGOO_ERR_OK ∧
      (Poll.agoo_ready_go fuel beh (.fail EAGAIN) now now2 st).1.next_check = st.next_check ∧
      (Poll.agoo_ready_go fuel beh (.fail EAGAIN) now now2 st).1.freed = st.freed ∧
      ∃ δ, (Poll.agoo_ready_go fuel beh (.fail EAGAIN) now now2 st).1.trace = st.trace ++ δ ∧
        ∀ e ∈ δ, isInterestE e = true) ∧
    (∀ (fuel : Nat) (beh : Nat → Behavior) (errno : Nat) (now now2 : ℚ) (st : Poll.PState),
      errno ≠ EAGAIN →
      (Poll.agoo_ready_go fuel beh (.fail errno) now now2 st).2 = errno ∧
      Event.errSet errno ∈ (Poll.agoo_ready_go fuel beh (.fail errno) now now2 st).1.trace ∧
      Event.logErr ∈ (Poll.agoo_ready_go fuel beh (.fail errno) now now2 st).1.trace) ∧
    (∀ (fuel : Nat) (beh : Nat → Behavior) (modErrno delErrno : Int → Nat) (errno : Nat)
        (now now2 : ℚ) (st : Epoll.EState),
      (Epoll.agoo_ready_go fuel beh modErrno delErrno (.fail errno) now now2 st).2 = errno ∧
      Event.errSet errno ∈
        (Epoll.agoo_ready_go fuel beh modErrno delErrno (.fail errno) now now2 st).1.trace ∧
      Event.logErr ∈
        (Epoll.agoo_ready_go fuel beh modErrno delErrno (.fail errno) now now2 st).1.trace) := by
  refine ⟨?_, ?_, ?_⟩
  · intro fuel beh now now2 st
    obtain ⟨Δ, hT, hP⟩ := cWalk_trace (fun s => s.trace) Poll.PNext (Poll.poll_refresh_body beh)
      (fun e => isInterestE e = true) (fun s n => poll_refresh_body_trace beh s n)
      fuel { st with npolled := 0 } st.links
    have hnc := cWalk_pres (fun s => s.next_check) Poll.PNext (Poll.poll_refresh_body beh)
      (fun s n => (poll_refresh_body_pres beh s n).1) fuel { st with npolled := 0 } st.links
    have hfr := cWalk_pres (fun s => s.freed) Poll.PNext (Poll.poll_refresh_body beh)
      (fun s n => (poll_refresh_body_pres beh s n).2.1) fuel { st with npolled := 0 } st.links
    refine ⟨?_, ?_, ?_, ⟨Δ, ?_, hP⟩⟩ <;>
      simp [Poll.agoo_ready_go, EAGAIN, hT, hnc, hfr]
  · intro fuel beh errno now now2 st hne
    obtain ⟨Δ, hT, hP⟩ := cWalk_trace (fun s => s.trace) Poll.PNext (Poll.poll_refresh_body beh)
      (fun e => isInterestE e = true) (fun s n => poll_refresh_body_trace beh s n)
      fuel { st with npolled := 0 } st.links
    refine ⟨?_, ?_, ?_⟩ <;>
      simp [Poll.agoo_ready_go, hne, Poll.pushT, hT]
  · intro fuel beh modErrno delErrno errno now now2 st
    refine ⟨?_, ?_, ?_⟩ <;>
      simp [Epoll.agoo_ready_go, Epoll.pushT]

theorem poll_remove_trace_eq (st : Poll.PState) (n : Nat) :
    (Poll.ready_remove st n).trace = st.trace ++ removeTrace (st.heap n).handler n := by
  rcases h1 : (st.heap n).prev with _ | p <;> rcases h2 : (st.heap n).next with _ | nx <;>
    rcases h3 : (st.heap n).handler.hasDestroy <;>
    simp [Poll.ready_remove, Poll.pushT, removeTrace, h1, h2, h3]

theorem poll_remove_freed_eq (st : Poll.PState) (n : Nat) :
    (Poll.ready_remove st n).freed = st.freed ++ [n] := by
  rcases h1 : (st.heap n).prev with _ | p <;> rcases h2 : (st.heap n).next with _ | nx <;>
    rcases h3 : (st.heap n).handler.hasDestroy <;>
    simp [Poll.ready_remove, Poll.pushT, h1, h2, h3]

theorem poll_err_trace_eq (st : Poll.PState) (n rev : Nat) :
    (Poll.poll_dispatch_err st n rev).trace =
      st.trace ++ pollErrTrace (st.heap n).handler n rev := by
  by_cases h : rev &&& (POLLERR ||| POLLHUP ||| POLLNVAL) ≠ 0 <;>
    by_cases he : (st.heap n).handler.hasError = true <;>
    simp [Poll.poll_dispatch_err, pollErrTrace, h, he, poll_remove_trace_eq, Poll.pushT]

theorem poll_err_freed_eq (st : Poll.PState) (n rev : Nat) :
    (Poll.poll_dispatch_err st n rev).freed =
      st.freed ++ (if rev &&& (POLLERR ||| POLLHUP ||| POLLNVAL) ≠ 0 then [n] else []) := by
  by_cases h : rev &&& (POLLERR ||| POLLHUP ||| POLLNVAL) ≠ 0 <;>
    by_cases he : (st.heap n).handler.hasError = true <;>
    simp [Poll.poll_dispatch_err, h, he, poll_remove_freed_eq, Poll.pushT]

theorem poll_wr_trace_eq (beh : Nat → Behavior) (st : Poll.PState) (n rev : Nat) :
    (Poll.poll_dispatch_wr beh st n rev).trace =
      st.trace ++ pollWrTrace (st.heap n).handler (beh n) n rev := by
  by_cases h : rev &&& POLLOUT ≠ 0 ∧ (st.heap n).handler.hasWrite = true <;>
    by_cases hw : (beh n).writeRes = false <;>
    simp [Poll.poll_dispatch_wr, pollWrTrace, h, hw, poll_remove_trace_eq,
      poll_err_trace_eq, Poll.pushT]

theorem poll_wr_freed_eq (beh : Nat → Behavior) (st : Poll.PState) (n rev : Nat) :
    (Poll.poll_dispatch_wr beh st n rev).freed =
      st.freed ++
        (if (if rev &&& POLLOUT ≠ 0 ∧ (st.heap n).handler.hasWrite = true ∧
              (beh n).writeRes = false then true
            else decide (rev &&& (POLLERR ||| POLLHUP ||| POLLNVAL) ≠ 0)) = true
          then [n] else []) := by
  by_cases h : rev &&& POLLOUT ≠ 0 ∧ (st.heap n).handler.hasWrite = true <;>
    by_cases hw : (beh n).writeRes = false <;>
    by_cases he : rev &&& (POLLERR ||| POLLHUP ||| POLLNVAL) ≠ 0 <;>
    simp [Poll.poll_dispatch_wr, h, hw, he, poll_remove_freed_eq, poll_err_freed_eq,
      Poll.pushT] <;> simp_all

theorem poll_body_trace_eq (beh : Nat → Behavior) (st : Poll.PState) (n : Nat) (j : Nat)
    (hpp : (st.heap n).pp = some j) :
    (Poll.poll_dispatch_body beh st n).trace =
      st.trace ++ pollBodyTrace (st.heap n).handler (beh n) (some j)
        ((st.slots j).revents) n := by
  by_cases h : (st.slots j).revents &&& POLLIN ≠ 0 ∧ (st.heap n).handler.hasRead = true <;>
    by_cases hr : (beh n).readRes = false <;>
    simp [Poll.poll_dispatch_body, pollBodyTrace, hpp, h, hr, poll_remove_trace_eq,
      poll_wr_trace_eq, Poll.pushT]

theorem poll_body_freed_eq (beh : Nat → Behavior) (st : Poll.PState) (n j : Nat)
    (hpp : (st.heap n).pp = some j) :
    (Poll.poll_dispatch_body beh st n).freed =
      st.freed ++
        (if pollBodyRemoves (st.heap n).handler (beh n) (some j) ((st.slots j).revents) = true
          then [n] else []) := by
  by_cases h : (st.slots j).revents &&& POLLIN ≠ 0 ∧ (st.heap n).handler.hasRead = true <;>
    by_cases hr : (beh n).readRes = false <;>
    simp [Poll.poll_dispatch_body, pollBodyRemoves, hpp, h, hr, poll_remove_freed_eq,
      poll_wr_freed_eq, Poll.pushT] <;> simp_all

theorem epoll_remove_trace_eq (delErrno : Int → Nat) (st : Epoll.EState) (n : Nat) :
    (Epoll.ready_remove delErrno st n).trace =
      st.trace ++ removeTraceE (st.heap n).handler (st.heap n).fd (delErrno (st.heap n).fd) n := by
  rcases h1 : (st.heap n).prev with _ | p <;> rcases h2 : (st.heap n).next with _ | nx <;>
    rcases h3 : (st.heap n).handler.hasDestroy <;>
    by_cases h4 : delErrno (st.heap n).fd ≠ 0 <;>
    simp [Epoll.ready_remove, Epoll.pushT, removeTraceE, h1, h2, h3, h4]

theorem epoll_remove_freed_eq (delErrno : Int → Nat) (st : Epoll.EState) (n : Nat) :
    (Epoll.ready_remove delErrno st n).freed = st.freed ++ [n] := by
  rcases h1 : (st.heap n).prev with _ | p <;> rcases h2 : (st.heap n).next with _ | nx <;>
    rcases h3 : (st.heap n).handler.hasDestroy <;>
    by_cases h4 : delErrno (st.heap n).fd ≠ 0 <;>
    simp [Epoll.ready_remove, Epoll.pushT, h1, h2, h3, h4]

theorem epoll_err_trace_eq (delErrno : Int → Nat) (st : Epoll.EState) (n bits : Nat) :
    (Epoll.epoll_dispatch_err delErrno st n bits).trace =
      st.trace ++ epollErrTrace (st.heap n).handler (st.heap n).fd (delErrno (st.heap n).fd)
        n bits := by
  by_cases h : bits &&& (EPOLLERR ||| EPOLLRDHUP ||| EPOLLHUP ||| EPOLLPRI) ≠ 0 <;>
    by_cases he : (st.heap n).handler.hasError = true <;>
    simp [Epoll.epoll_dispatch_err, epollErrTrace, h, he, epoll_remove_trace_eq, Epoll.pushT]

theorem epoll_err_freed_eq (delErrno : Int → Nat) (st : Epoll.EState) (n bits : Nat) :
    (Epoll.epoll_dispatch_err delErrno st n bits).freed =
      st.freed ++ (if bits &&& (EPOLLERR ||| EPOLLRDHUP ||| EPOLLHUP ||| EPOLLPRI) ≠ 0
        then [n] else []) := by
  by_cases h : bits &&& (EPOLLERR ||| EPOLLRDHUP ||| EPOLLHUP ||| EPOLLPRI) ≠ 0 <;>
    by_cases he : (st.heap n).handler.hasError = true <;>
    simp [Epoll.epoll_dispatch_err, h, he, epoll_remove_freed_eq, Epoll.pushT]

theorem epoll_wr_trace_eq (beh : Nat → Behavior) (delErrno : Int → Nat) (st : Epoll.EState)
    (n bits : Nat) :
    (Epoll.epoll_dispatch_wr beh delErrno st n bits).trace =
      st.trace ++ epollWrTrace (st.heap n).handler (beh n) (st.heap n).fd
        (delErrno (st.heap n).fd) n bits := by
  by_cases h : bits &&& EPOLLOUT ≠ 0 ∧ (st.heap n).handler.hasWrite = true <;>
    by_cases hw : (beh n).writeRes = false <;>
    simp [Epoll.epoll_dispatch_wr, epollWrTrace, h, hw, epoll_remove_trace_eq,
      epoll_err_trace_eq, Epoll.pushT]

theorem epoll_wr_freed_eq (beh : Nat → Behavior) (delErrno : Int → Nat) (st : Epoll.EState)
    (n bits : Nat) :
    (Epoll.epoll_dispatch_wr beh delErrno st n bits).freed =
      st.freed ++
        (if (if bits &&& EPOLLOUT ≠ 0 ∧ (st.heap n).handler.hasWrite = true ∧
              (beh n).writeRes = false then true
            else decide (bits &&& (EPOLLERR ||| EPOLLRDHUP ||| EPOLLHUP ||| EPOLLPRI) ≠ 0)) = true
          then [n] else []) := by
  by_cases h : bits &&& EPOLLOUT ≠ 0 ∧ (st.heap n).handler.hasWrite = true <;>
    by_cases hw : (beh n).writeRes = false <;>
    by_cases he : bits &&& (EPOLLERR ||| EPOLLRDHUP ||| EPOLLHUP ||| EPOLLPRI) ≠ 0 <;>
    simp [Epoll.epoll_dispatch_wr, h, hw, he, epoll_remove_freed_eq, epoll_err_freed_eq,
      Epoll.pushT] <;> simp_all

theorem epoll_body_trace_eq (beh : Nat → Behavior) (delErrno : Int → Nat) (st : Epoll.EState)
    (n bits : Nat) :
    (Epoll.epoll_dispatch_body beh delErrno st (n, bits)).trace =
      st.trace ++ epollBodyTrace (st.heap n).handler (beh n) (st.heap n).fd
        (delErrno (st.heap n).fd) n bits := by
  by_cases h : bits &&& EPOLLIN ≠ 0 ∧ (st.heap n).handler.hasRead = true <;>
    by_cases hr : (beh n).readRes = false <;>
    simp [Epoll.epoll_dispatch_body, epollBodyTrace, h, hr, epoll_remove_trace_eq,
      epoll_wr_trace_eq, Epoll.pushT]

theorem epoll_body_freed_eq (beh : Nat → Behavior) (delErrno : Int → Nat) (st : Epoll.EState)
    (n bits : Nat) :
    (Epoll.epoll_dispatch_body beh delErrno st (n, bits)).freed =
      st.freed ++
        (if epollBodyRemoves (st.heap n).handler (beh n) bits = true then [n] else []) := by
  by_cases h : bits &&& EPOLLIN ≠ 0 ∧ (st.heap n).handler.hasRead = true <;>
    by_cases hr : (beh n).readRes = false <;>
    simp [Epoll.epoll_dispatch_body, epollBodyRemoves, h, hr, epoll_remove_freed_eq,
      epoll_wr_freed_eq, Epoll.pushT] <;> simp_all

/-- C2: dispatch order within one signaled event, for both backends.
Read runs first when the readable bit is set and `read` is present; after
a true `read`, simultaneous error/hangup bits still run `error` (when
present) and unregister the Link, provided the write step did not already
unregister it; and a false `write` after a true `read` unregisters the
Link without ever invoking `error`. -/
theorem C2_dispatch_read_write_error_order :
    (∀ (beh : Nat → Behavior) (st : Poll.PState) (n j : Nat),
      (st.heap n).pp = some j →
      (st.slots j).revents &&& POLLIN ≠ 0 →
      (st.heap n).handler.hasRead = true →
      ∃ δ, (Poll.poll_dispatch_body beh st n).trace =
        st.trace ++ Event.callRead n ((beh n).readRes) :: δ) ∧
    (∀ (beh : Nat → Behavior) (st : Poll.PState) (n j : Nat),
      (st.heap n).pp = some j →
      (st.slots j).revents &&& POLLIN ≠ 0 →
      (st.heap n).handler.hasRead = true →
      (beh n).readRes = true →
      (st.slots j).revents &&& (POLLERR ||| POLLHUP ||| POLLNVAL) ≠ 0 →
      ((st.slots j).revents &&& POLLOUT = 0 ∨ (st.heap n).handler.hasWrite = false ∨
        (beh n).writeRes = true) →
      (((st.heap n).handler.hasError = true →
        Event.callError n ∈ (Poll.poll_dispatch_body beh st n).trace) ∧
      (Poll.poll_dispatch_body beh st n).freed = st.freed ++ [n])) ∧
    (∀ (beh : Nat → Behavior) (st : Poll.PState) (n j : Nat),
      (st.heap n).pp = some j →
      (st.slots j).revents &&& POLLIN ≠ 0 →
      (st.slots j).revents &&& POLLOUT ≠ 0 →
      (st.heap n).handler.hasRead = true →
      (st.heap n).handler.hasWrite = true →
      (beh n).readRes = true →
      (beh n).writeRes = false →
      ((Poll.poll_dispatch_body beh st n).freed = st.freed ++ [n] ∧
      ∃ δ, (Poll.poll_dispatch_body beh st n).trace = st.trace ++ δ ∧
        Event.callRead n true ∈ δ ∧ Event.callWrite n false ∈ δ ∧
        Event.callError n ∉ δ)) ∧
    (∀ (beh : Nat → Behavior) (delErrno : Int → Nat) (st : Epoll.EState) (n bits : Nat),
      bits &&& EPOLLIN ≠ 0 →
      (st.heap n).handler.hasRead = true →
      ∃ δ, (Epoll.epoll_dispatch_body beh delErrno st (n, bits)).trace =
        st.trace ++ Event.callRead n ((beh n).readRes) :: δ) ∧
    (∀ (beh : Nat → Behavior) (delErrno : Int → Nat) (st : Epoll.EState) (n bits : Nat),
      bits &&& EPOLLIN ≠ 0 →
      (st.heap n).handler.hasRead = true →
      (beh n).readRes = true →
      bits &&& (EPOLLERR ||| EPOLLRDHUP ||| EPOLLHUP ||| EPOLLPRI) ≠ 0 →
      (bits &&& EPOLLOUT = 0 ∨ (st.heap n).handler.hasWrite = false ∨
        (beh n).writeRes = true) →
      (((st.heap n).handler.hasError = true →
        Event.callError n ∈ (Epoll.epoll_dispatch_body beh delErrno st (n, bits)).trace) ∧
      (Epoll.epoll_dispatch_body beh delErrno st (n, bits)).freed = st.freed ++ [n])) ∧
    (∀ (beh : Nat → Behavior) (delErrno : Int → Nat) (st : Epoll.EState) (n bits : Nat),
      bits &&& EPOLLIN ≠ 0 →
      bits &&& EPOLLOUT ≠ 0 →
      (st.heap n).handler.hasRead = true →
      (st.heap n).handler.hasWrite = true →
      (beh n).readRes = true →
      (beh n).writeRes = false →
      ((Epoll.epoll_dispatch_body beh delErrno st (n, bits)).freed = st.freed ++ [n] ∧
      ∃ δ, (Epoll.epoll_dispatch_body beh delErrno st (n, bits)).trace = st.trace ++ δ ∧
        Event.callRead n true ∈ δ ∧ Event.callWrite n false ∈ δ ∧
        Event.callError n ∉ δ)) := by
  refine ⟨?_, ?_, ?_, ?_, ?_, ?_⟩
  · intro beh st n j hpp hIn hR
    refine ⟨if (beh n).readRes = false then removeTrace (st.heap n).handler n
      else pollWrTrace (st.heap n).handler (beh n) n ((st.slots j).revents), ?_⟩
    rw [poll_body_trace_eq beh st n j hpp]
    simp [pollBodyTrace, hIn, hR]
  · intro beh st n j hpp hIn hR hrt herr hdisj
    constructor
    · intro hE
      rw [poll_body_trace_eq beh st n j hpp]
      rcases hdisj with h | h | h <;>
        simp [pollBodyTrace, pollWrTrace, pollErrTrace, hIn, hR, hrt, herr, hE, h] <;>
        (right; split <;> simp)
    · rw [poll_body_freed_eq beh st n j hpp]
      rcases hdisj with h | h | h <;>
        simp [pollBodyRemoves, hIn, hR, hrt, herr, h]
  · intro beh st n j hpp hIn hOut hR hW hrt hwf
    refine ⟨?_, Event.callRead n true :: Event.callWrite n false ::
      removeTrace (st.heap n).handler n, ?_, by simp, by simp, ?_⟩
    · rw [poll_body_freed_eq beh st n j hpp]
      simp [pollBodyRemoves, hIn, hOut, hR, hW, hrt, hwf]
    · rw [poll_body_trace_eq beh st n j hpp]
      simp [pollBodyTrace, pollWrTrace, hIn, hOut, hR, hW, hrt, hwf]
    · rcases hd : (st.heap n).handler.hasDestroy <;> simp [removeTrace, hd]
  · intro beh delErrno st n bits hIn hR
    refine ⟨if (beh n).readRes = false then
        removeTraceE (st.heap n).handler (st.heap n).fd (delErrno (st.heap n).fd) n
      else epollWrTrace (st.heap n).handler (beh n) (st.heap n).fd
        (delErrno (st.heap n).fd) n bits, ?_⟩
    rw [epoll_body_trace_eq beh delErrno st n bits]
    simp [epollBodyTrace, hIn, hR]
  · intro beh delErrno st n bits hIn hR hrt herr hdisj
    constructor
    · intro hE
      rw [epoll_body_trace_eq beh delErrno st n bits]
      rcases hdisj with h | h | h <;>
        simp [epollBodyTrace, epollWrTrace, epollErrTrace, hIn, hR, hrt, herr, hE, h] <;>
        (right; split <;> simp)
    · rw [epoll_body_freed_eq beh delErrno st n bits]
      rcases hdisj with h | h | h <;>
        simp [epollBodyRemoves, hIn, hR, hrt, herr, h]
  · intro beh delErrno st n bits hIn hOut hR hW hrt hwf
    refine ⟨?_, Event.callRead n true :: Event.callWrite n false ::
      removeTraceE (st.heap n).handler (st.heap n).fd (delErrno (st.heap n).fd) n,
      ?_, by simp, by simp, ?_⟩
    · rw [epoll_body_freed_eq beh delErrno st n bits]
      simp [epollBodyRemoves, hIn, hOut, hR, hW, hrt, hwf]
    · rw [epoll_body_trace_eq beh delErrno st n bits]
      simp [epollBodyTrace, epollWrTrace, hIn, hOut, hR, hW, hrt, hwf]
    · rcases hd : (st.heap n).handler.hasDestroy <;>
        by_cases hde : delErrno (st.heap n).fd ≠ 0 <;>
        simp [removeTraceE, hd, hde]

/-- Witness for C2: the six dispatch-order properties evaluated on a
concrete one-Link manager whose slot or event reports readable, writable
and error at once, with a behavior whose write succeeds (first scenarios)
or fails (write-false scenarios). -/
theorem C2_dispatch_order_witness :
    (∃ δ, (Poll.poll_dispatch_body okBeh c2St 0).trace =
      c2St.trace ++ Event.callRead 0 ((okBeh 0).readRes) :: δ) ∧
    (((c2St.heap 0).handler.hasError = true →
        Event.callError 0 ∈ (Poll.poll_dispatch_body okBeh c2St 0).trace) ∧
      (Poll.poll_dispatch_body okBeh c2St 0).freed = c2St.freed ++ [0]) ∧
    ((Poll.poll_dispatch_body c2Beh c2St 0).freed = c2St.freed ++ [0] ∧
      ∃ δ, (Poll.poll_dispatch_body c2Beh c2St 0).trace = c2St.trace ++ δ ∧
        Event.callRead 0 true ∈ δ ∧ Event.callWrite 0 false ∈ δ ∧
        Event.callError 0 ∉ δ) ∧
    (∃ δ, (Epoll.epoll_dispatch_body okBeh (fun _ => 0) c2StE
        (0, EPOLLIN ||| EPOLLOUT ||| EPOLLERR)).trace =
      c2StE.trace ++ Event.callRead 0 ((okBeh 0).readRes) :: δ) ∧
    (((c2StE.heap 0).handler.hasError = true →
        Event.callError 0 ∈ (Epoll.epoll_dispatch_body okBeh (fun _ => 0) c2StE
          (0, EPOLLIN ||| EPOLLOUT ||| EPOLLERR)).trace) ∧
      (Epoll.epoll_dispatch_body okBeh (fun _ => 0) c2StE
        (0, EPOLLIN ||| EPOLLOUT ||| EPOLLERR)).freed = c2StE.freed ++ [0]) ∧
    ((Epoll.epoll_dispatch_body c2Beh (fun _ => 0) c2StE
        (0, EPOLLIN ||| EPOLLOUT ||| EPOLLERR)).freed = c2StE.freed ++ [0] ∧
      ∃ δ, (Epoll.epoll_dispatch_body c2Beh (fun _ => 0) c2StE
          (0, EPOLLIN ||| EPOLLOUT ||| EPOLLERR)).trace = c2StE.trace ++ δ ∧
        Event.callRead 0 true ∈ δ ∧ Event.callWrite 0 false ∈ δ ∧
        Event.callError 0 ∉ δ) :=
  ⟨C2_dispatch_read_write_error_order.1 okBeh c2St 0 0 (by decide) (by decide) (by decide),
   C2_dispatch_read_write_error_order.2.1 okBeh c2St 0 0 (by decide) (by decide) (by decide)
     (by decide) (by decide) (by decide),
   C2_dispatch_read_write_error_order.2.2.1 c2Beh c2St 0 0 (by decide) (by decide) (by decide)
     (by decide) (by decide) (by decide) (by decide),
   C2_dispatch_read_write_error_order.2.2.2.1 okBeh (fun _ => 0) c2StE 0
     (EPOLLIN ||| EPOLLOUT ||| EPOLLERR) (by decide) (by decide),
   C2_dispatch_read_write_error_order.2.2.2.2.1 okBeh (fun _ => 0) c2StE 0
     (EPOLLIN ||| EPOLLOUT ||| EPOLLERR) (by decide) (by decide) (by decide) (by decide)
     (by decide),
   C2_dispatch_read_write_error_order.2.2.2.2.2 c2Beh (fun _ => 0) c2StE 0
     (EPOLLIN ||| EPOLLOUT ||| EPOLLERR) (by decide) (by decide) (by decide) (by decide)
     (by decide) (by decide)⟩


theorem epoll_remove_lcnt_eq (delErrno : Int → Nat) (st : Epoll.EState) (n : Nat) :
    (Epoll.ready_remove delErrno st n).lcnt = st.lcnt - 1 := by
  rcases h1 : (st.heap n).prev with _ | p <;> rcases h2 : (st.heap n).next with _ | nx <;>
    rcases h3 : (st.heap n).handler.hasDestroy <;>
    by_cases h4 : delErrno (st.heap n).fd ≠ 0 <;>
    simp [Epoll.ready_remove, Epoll.pushT, h1, h2, h3, h4]

theorem epoll_add_lcnt_eq (a : Bool) (e : Nat) (fd : Int) (h : AgooHandler) (n : Nat)
    (st : Epoll.EState) :
    (Epoll.agoo_ready_add a e fd h n st).1.lcnt = st.lcnt + (if a = true then 1 else 0) := by
  rcases a <;> rcases hl : st.links with _ | hd <;> by_cases he : e ≠ 0 <;>
    simp [Epoll.agoo_ready_add, Epoll.pushT, hl, he]

/-- C6 as amended: count() equals the number of register calls whose
Link allocation succeeded (the Link got linked) minus the number of
unregistrations; a register failing at Link allocation contributes 0 and
returns AGOO_ERR_MEMORY, but an epoll-backend register whose
EPOLL_CTL_ADD fails returns that error WITH the Link already linked and
counted, so it still contributes 1. -/
theorem C6_count_amended :
    (∀ (delErrno : Int → Nat) (st : Epoll.EState) (ops : List MOp),
      Epoll.agoo_ready_count (runOps delErrno st ops) = st.lcnt + linkedDelta ops) ∧
    (∀ (st : Epoll.EState) (fd : Int) (h : AgooHandler) (n : Nat) (errno : Nat),
      errno ≠ 0 →
      ((Epoll.agoo_ready_add true errno fd h n st).2 ≠ AGOO_ERR_OK ∧
      Epoll.agoo_ready_count (Epoll.agoo_ready_add true errno fd h n st).1 = st.lcnt + 1)) ∧
    (∀ (st : Epoll.EState) (fd : Int) (h : AgooHandler) (n : Nat) (errno : Nat),
      Epoll.agoo_ready_count (Epoll.agoo_ready_add false errno fd h n st).1 = st.lcnt ∧
      (Epoll.agoo_ready_add false errno fd h n st).2 = AGOO_ERR_MEMORY) := by
  refine ⟨?_, ?_, ?_⟩
  · intro delErrno st ops
    induction ops generalizing st with
    | nil => simp [runOps, linkedDelta, Epoll.agoo_ready_count]
    | cons op ops ih =>
      rcases op with ⟨a, e, fd, h, n⟩ | n
      · rcases a <;>
          simp [runOps, linkedDelta, ih, epoll_add_lcnt_eq] <;> ring
      · simp [runOps, linkedDelta, ih, epoll_remove_lcnt_eq] <;> ring
  · intro st fd h n errno he
    constructor
    · simp [Epoll.agoo_ready_add, Epoll.pushT, he, AGOO_ERR_OK]
    · have := epoll_add_lcnt_eq true errno fd h n st
      simp [Epoll.agoo_ready_count, this]
  · intro st fd h n errno
    refine ⟨?_, ?_⟩ <;> simp [Epoll.agoo_ready_add, Epoll.agoo_ready_count, Epoll.pushT]


/-- C6 counterexample: from an empty epoll manager, a register call whose
EPOLL_CTL_ADD fails (errno 1) returns an error yet count() is 1 — the
claim that an error-returning register does not contribute is false. -/
theorem C6_count_counterexample :
    (Epoll.agoo_ready_add true 1 5 hAll 0 (Epoll.epollInit 0 (fun _ => eDead))).2 ≠
      AGOO_ERR_OK ∧
    Epoll.agoo_ready_count
      (Epoll.agoo_ready_add true 1 5 hAll 0 (Epoll.epollInit 0 (fun _ => eDead))).1 = 1 := by
  decide

/-- Witness for C6: the count equation evaluated on a concrete sequence
of two successful registers, one allocation-failed register and one
unregistration. -/
theorem C6_count_witness :
    Epoll.agoo_ready_count (runOps (fun _ => 0) (Epoll.epollInit 0 (fun _ => eDead))
      [.reg true 0 5 hAll 0, .reg true 1 6 hAll 1, .reg false 0 7 hAll 2, .unreg 0]) =
      (Epoll.epollInit 0 (fun _ => eDead)).lcnt +
        linkedDelta [.reg true 0 5 hAll 0, .reg true 1 6 hAll 1, .reg false 0 7 hAll 2,
          .unreg 0] :=
  C6_count_amended.1 (fun _ => 0) (Epoll.epollInit 0 (fun _ => eDead))
    [.reg true 0 5 hAll 0, .reg true 1 6 hAll 1, .reg false 0 7 hAll 2, .unreg 0]


theorem chainB_congr (nx nx' : Nat → Option Nat) :
    ∀ (l : List Nat) (ptr : Option Nat), (∀ m ∈ l, nx m = nx' m) →
      chainB nx ptr l = chainB nx' ptr l := by
  intro l
  induction l with
  | nil => intro ptr _; rfl
  | cons n rest ih =>
    intro ptr hm
    rw [chainB, chainB, hm n (by simp), ih (nx' n) (fun m hmem => hm m (by simp [hmem]))]

theorem poll_add_spec (fd : Int) (h : AgooHandler) (n : Nat) (st : Poll.PState) :
    ((Poll.agoo_ready_add true true fd h n st).1.lcnt = st.lcnt + 1) ∧
    ((Poll.agoo_ready_add true true fd h n st).1.links = some n) ∧
    ((Poll.agoo_ready_add true true fd h n st).1.cap =
      (if (st.cap : Int) ≤ st.lcnt + 1 then st.cap * 2 else st.cap)) ∧
    ((Poll.agoo_ready_add true true fd h n st).1.trace =
      st.trace ++ (if (st.cap : Int) ≤ st.lcnt + 1 then [Event.arrayGrow (st.cap * 2)]
        else [])) ∧
    (((Poll.agoo_ready_add true true fd h n st).1.heap n).next = st.links) ∧
    (((Poll.agoo_ready_add true true fd h n st).1.heap n).handler = h) ∧
    (∀ m, m ≠ n → ((Poll.agoo_ready_add true true fd h n st).1.heap m).next =
        (st.heap m).next ∧
      ((Poll.agoo_ready_add true true fd h n st).1.heap m).handler =
        (st.heap m).handler) := by
  rcases hl : st.links with _ | hd
  · by_cases hg : (st.cap : Int) ≤ st.lcnt + 1
    all_goals refine ⟨?_, ?_, ?_, ?_, ?_, ?_, fun m hm => ⟨?_, ?_⟩⟩
    all_goals simp [Poll.agoo_ready_add, Poll.pushT, hupd, hl, hg, *]
  · by_cases hg : (st.cap : Int) ≤ st.lcnt + 1 <;> by_cases hnh : n = hd
    all_goals refine ⟨?_, ?_, ?_, ?_, ?_, ?_, fun m hm => ⟨?_, ?_⟩⟩
    all_goals simp [Poll.agoo_ready_add, Poll.pushT, hupd, hl, hg, hnh, *]
    all_goals (try split <;> simp_all)



theorem addN_spec : ∀ k, k ≤ 2047 →
    ((addN k).lcnt = k ∧
    (addN k).cap = (if k < 1024 then 1024 else 2048) ∧
    growCount (addN k).trace = (if k < 1024 then 0 else 1) ∧
    chainB (fun m => ((addN k).heap m).next) (addN k).links ((List.range k).reverse) = true ∧
    (∀ m, m < k → ((addN k).heap m).handler = hAll)) := by
  intro k
  induction k with
  | zero =>
    intro _
    refine ⟨rfl, by simp [addN, Poll.pollInit, INITIAL_POLL_SIZE],
      by simp [addN, Poll.pollInit, growCount], ?_, fun m hm => by omega⟩
    simp [chainB, addN, Poll.pollInit]
  | succ k ih =>
    intro hk
    obtain ⟨hl, hc, hg, hch, hh⟩ := ih (by omega)
    obtain ⟨a1, a2, a3, a4, a5, a6, a7⟩ := poll_add_spec (k : Int) hAll k (addN k)
    have hstep : addN (k + 1) = (Poll.agoo_ready_add true true (k : Int) hAll k (addN k)).1 := rfl
    refine ⟨?_, ?_, ?_, ?_, ?_⟩
    · rw [hstep, a1, hl]; omega
    · rw [hstep, a3, hc, hl]
      by_cases h1 : k < 1023 <;> by_cases h2 : k < 1024 <;> split_ifs <;> omega
    · rw [hstep]
      have : growCount (Poll.agoo_ready_add true true (k : Int) hAll k (addN k)).1.trace =
          growCount (addN k).trace +
            (if ((addN k).cap : Int) ≤ (addN k).lcnt + 1 then 1 else 0) := by
        rw [a4]
        split_ifs <;> simp [growCount, isGrowE]
      rw [this, hg, hc, hl]
      split_ifs <;> omega
    · rw [hstep]
      rw [List.range_succ, List.reverse_append]
      simp only [List.reverse_singleton, List.singleton_append]
      rw [chainB]
      have hcong : chainB (fun m => (((Poll.agoo_ready_add true true (k : Int) hAll k
            (addN k)).1.heap m)).next) ((addN k).links) ((List.range k).reverse) =
          chainB (fun m => ((addN k).heap m).next) ((addN k).links) ((List.range k).reverse) := by
        apply chainB_congr
        intro m hm
        exact (a7 m (by simp at hm; omega)).1
      rw [a5] at *
      simp [a2, a5, hcong, hch]
    · intro m hm
      rw [hstep]
      by_cases hmk : m = k
      · rw [hmk]; exact a6
      · rw [(a7 m hmk).2]; exact hh m (by omega)



theorem poll_refresh_body_in (beh : Nat → Behavior) (st : Poll.PState) (n : Nat)
    (h : (beh n).ioRes = .AGOO_READY_IN) :
    ((Poll.poll_refresh_body beh st n).npolled = st.npolled + 1) ∧
    (((Poll.poll_refresh_body beh st n).heap n).pp = some st.npolled) ∧
    (∀ m, m ≠ n → (Poll.poll_refresh_body beh st n).heap m = st.heap m) := by
  refine ⟨?_, ?_, fun m hm => ?_⟩ <;> simp [Poll.poll_refresh_body, h, Poll.pushT, hupd, *]

theorem poll_refresh_walk_assigns (beh : Nat → Behavior)
    (hio : ∀ n, (beh n).ioRes = .AGOO_READY_IN) :
    ∀ (l : List Nat) (fuel : Nat) (st : Poll.PState) (ptr : Option Nat),
      chainB (fun m => (st.heap m).next) ptr l = true → l.Nodup → l.length < fuel →
      (((cWalk Poll.PNext (Poll.poll_refresh_body beh) fuel st ptr).npolled =
        st.npolled + l.length) ∧
      (∀ k, ∀ (hk : k < l.length),
        ((cWalk Poll.PNext (Poll.poll_refresh_body beh) fuel st ptr).heap
          (l.get ⟨k, hk⟩)).pp = some (st.npolled + k)) ∧
      (∀ m, m ∉ l → (cWalk Poll.PNext (Poll.poll_refresh_body beh) fuel st ptr).heap m =
        st.heap m)) := by
  intro l
  induction l with
  | nil =>
    intro fuel st ptr hch _ hf
    have hp : ptr = none := by simpa [chainB] using hch
    rcases fuel with _ | f
    · omega
    · subst hp
      exact ⟨by simp [cWalk], fun k hk => by simp at hk, fun m _ => by simp [cWalk]⟩
  | cons n rest ih =>
    intro fuel st ptr hch hnd hf
    rcases fuel with _ | f
    · omega
    obtain ⟨hp, hch'⟩ : ptr = some n ∧
        chainB (fun m => (st.heap m).next) ((st.heap n).next) rest = true := by
      simpa [chainB] using hch
    subst hp
    obtain ⟨b1, b2, b3⟩ := poll_refresh_body_in beh st n (hio n)
    have hnd' : rest.Nodup := (List.nodup_cons.mp hnd).2
    have hnin : n ∉ rest := (List.nodup_cons.mp hnd).1
    have hch2 : chainB (fun m => ((Poll.poll_refresh_body beh st n).heap m).next)
        ((st.heap n).next) rest = true := by
      have hcg := chainB_congr (fun m => ((Poll.poll_refresh_body beh st n).heap m).next)
        (fun m => (st.heap m).next) rest ((st.heap n).next)
        (fun m hm => by
          have hmn : m ≠ n := fun he => hnin (he ▸ hm)
          simp only [b3 m hmn])
      rw [hcg]
      exact hch'
    have walkeq : cWalk Poll.PNext (Poll.poll_refresh_body beh) (f + 1) st (some n) =
        cWalk Poll.PNext (Poll.poll_refresh_body beh) f (Poll.poll_refresh_body beh st n)
          ((st.heap n).next) := rfl
    obtain ⟨c1, c2, c3⟩ := ih f (Poll.poll_refresh_body beh st n) ((st.heap n).next) hch2 hnd'
      (by simp at hf ⊢; omega)
    refine ⟨?_, ?_, ?_⟩
    · rw [walkeq, c1, b1]
      simp
      omega
    · intro k hk
      rcases k with _ | k'
      · rw [walkeq]
        have hget : (n :: rest).get ⟨0, hk⟩ = n := rfl
        rw [hget, c3 n hnin, b2]
        simp
      · rw [walkeq]
        have hk' : k' < rest.length := by simp at hk; omega
        have hget : (n :: rest).get ⟨k' + 1, hk⟩ = rest.get ⟨k', hk'⟩ := rfl
        rw [hget, c2 k' hk', b1]
        congr 1
        omega
    · intro m hm
      rw [walkeq, c3 m (fun hmem => hm (by simp [hmem])),
        b3 m (fun he => hm (by simp [he]))]



theorem poll_remove_keeps (st : Poll.PState) (n : Nat) :
    ((Poll.ready_remove st n).npolled = st.npolled) ∧
    ((Poll.ready_remove st n).next_check = st.next_check) ∧
    (∀ m, ((Poll.ready_remove st n).heap m).pp = (st.heap m).pp) := by
  refine ⟨?_, ?_, fun m => ?_⟩ <;>
  rcases h1 : (st.heap n).prev with _ | p <;> rcases h2 : (st.heap n).next with _ | nx <;>
    rcases h3 : (st.heap n).handler.hasDestroy <;>
    simp [Poll.ready_remove, Poll.pushT, hupd, h1, h2, h3] <;>
    (repeat' split) <;> simp_all

theorem poll_dispatch_body_keeps (beh : Nat → Behavior) (st : Poll.PState) (n : Nat) :
    ((Poll.poll_dispatch_body beh st n).npolled = st.npolled) ∧
    ((Poll.poll_dispatch_body beh st n).next_check = st.next_check) ∧
    (∀ m, ((Poll.poll_dispatch_body beh st n).heap m).pp = (st.heap m).pp) := by
  rcases hpp : (st.heap n).pp with _ | j
  · simp [Poll.poll_dispatch_body, hpp]
  · refine ⟨?_, ?_, fun m => ?_⟩ <;>
    simp only [Poll.poll_dispatch_body, Poll.poll_dispatch_wr, Poll.poll_dispatch_err, hpp] <;>
    (repeat' split) <;>
    simp_all [Poll.pushT, poll_remove_keeps, (poll_remove_keeps _ _).2.2]

theorem poll_sweep_body_keeps (beh : Nat → Behavior) (st : Poll.PState) (n : Nat) :
    ((Poll.sweep_body beh st n).npolled = st.npolled) ∧
    ((Poll.sweep_body beh st n).next_check = st.next_check) ∧
    (∀ m, ((Poll.sweep_body beh st n).heap m).pp = (st.heap m).pp) := by
  refine ⟨?_, ?_, fun m => ?_⟩ <;>
  simp only [Poll.sweep_body] <;>
  (repeat' split) <;>
  simp_all [Poll.pushT, poll_remove_keeps, (poll_remove_keeps _ _).2.2]



theorem go_polls_all (beh : Nat → Behavior) (hio : ∀ n, (beh n).ioRes = .AGOO_READY_IN)
    (l : List Nat) (fuel : Nat) (st : Poll.PState) (os : Nat → Nat) (now now2 : ℚ)
    (hch : chainB (fun m => (st.heap m).next) st.links l = true) (hnd : l.Nodup)
    (hf : l.length < fuel) :
    ((Poll.agoo_ready_go fuel beh (.ok os) now now2 st).1.npolled = l.length) ∧
    (∀ k, ∀ (hk : k < l.length),
      (((Poll.agoo_ready_go fuel beh (.ok os) now now2 st).1.heap (l.get ⟨k, hk⟩)).pp =
        some k)) := by
  obtain ⟨r1, r2, -⟩ := poll_refresh_walk_assigns beh hio l fuel { st with npolled := 0 }
    st.links hch hnd hf
  simp only at r1 r2
  rw [Nat.zero_add] at r1
  set st2 := cWalk Poll.PNext (Poll.poll_refresh_body beh) fuel { st with npolled := 0 }
    st.links with hst2
  set st3 := Poll.fillRevents st2 os st2.npolled with hst3
  have s3np : st3.npolled = l.length := by rw [hst3, Poll.fillRevents]; exact r1
  have s3pp : ∀ k, ∀ (hk : k < l.length), ((st3.heap (l.get ⟨k, hk⟩)).pp = some k) := by
    intro k hk
    rw [hst3, Poll.fillRevents]
    simpa using r2 k hk
  set st4 := if 0 < Poll.countReady os st2.npolled then
    cWalk Poll.PNext (Poll.poll_dispatch_body beh) fuel st3 st.links else st3 with hst4
  have s4np : st4.npolled = l.length := by
    rw [hst4]
    split
    · rw [cWalk_pres (fun s => s.npolled) Poll.PNext (Poll.poll_dispatch_body beh)
        (fun s n => (poll_dispatch_body_keeps beh s n).1) fuel st3 st.links]
      exact s3np
    · exact s3np
  have s4pp : ∀ k, ∀ (hk : k < l.length), ((st4.heap (l.get ⟨k, hk⟩)).pp = some k) := by
    intro k hk
    rw [hst4]
    split
    · rw [congrFun (cWalk_pres (fun s => (fun mm => (s.heap mm).pp)) Poll.PNext
        (Poll.poll_dispatch_body beh)
        (fun s n => funext fun mm => (poll_dispatch_body_keeps beh s n).2.2 mm)
        fuel st3 st.links) (l.get ⟨k, hk⟩)]
      exact s3pp k hk
    · exact s3pp k hk
  have goeq : (Poll.agoo_ready_go fuel beh (.ok os) now now2 st).1 =
      (if st4.next_check ≤ now then
        { cWalk Poll.PNext (Poll.sweep_body beh) fuel st4 st.links with
            next_check := qadd now2 CHECK_FREQ }
        else st4) := by
    rw [Poll.agoo_ready_go]
  rw [goeq]
  constructor
  · split
    · simp only
      rw [cWalk_pres (fun s => s.npolled) Poll.PNext (Poll.sweep_body beh)
        (fun s n => (poll_sweep_body_keeps beh s n).1) fuel st4 st.links]
      exact s4np
    · exact s4np
  · intro k hk
    split
    · simp only
      rw [congrFun (cWalk_pres (fun s => (fun mm => (s.heap mm).pp)) Poll.PNext
        (Poll.sweep_body beh)
        (fun s n => funext fun mm => (poll_sweep_body_keeps beh s n).2.2 mm)
        fuel st4 st.links) (l.get ⟨k, hk⟩)]
      exact s4pp k hk
    · exact s4pp k hk



/-- C8 counterexample: the 1024th registration doubles the slot array
although the live count (1024) does not exceed the prior capacity (1024)
— growth happens when the count REACHES the capacity, one registration
before the claimed "exceeds". -/
theorem C8_growth_counterexample :
    (addN 1023).cap = 1024 ∧ (addN 1024).lcnt = 1024 ∧ (addN 1024).cap = 2048 ∧
    ¬((addN 1024).lcnt > ((addN 1023).cap : Int)) := by
  obtain ⟨l3, c3, -, -, -⟩ := addN_spec 1023 (by norm_num)
  obtain ⟨l4, c4, -, -, -⟩ := addN_spec 1024 (by norm_num)
  norm_num at c3 c4
  refine ⟨c3, by rw [l4]; norm_num, c4, ?_⟩
  rw [l4, c3]
  norm_num

/-- C8 as amended: the slot array starts at capacity 1024 and is doubled
(and zeroed) at registration exactly when the capacity is at most the
live count after the increment (count >= capacity, not strictly greater);
registering 1025 fds from empty still causes exactly one growth, to 2048
(it fires at the 1024th registration), and the next tick polls all 1025
Links: the interest-refresh pass fills 1025 slots and hands each Link a
distinct slot back-pointer. -/
theorem C8_growth_amended :
    (∀ (boot : ℚ) (h0 : Nat → Poll.Node), (Poll.pollInit boot h0).cap = 1024) ∧
    (∀ (fd : Int) (h : AgooHandler) (n : Nat) (st : Poll.PState),
      (Poll.agoo_ready_add true true fd h n st).1.cap =
        (if (st.cap : Int) ≤ st.lcnt + 1 then st.cap * 2 else st.cap)) ∧
    ((addN 1025).cap = 2048 ∧ growCount (addN 1025).trace = 1) ∧
    (∀ (beh : Nat → Behavior) (os : Nat → Nat) (now now2 : ℚ) (fuel : Nat),
      (∀ n, (beh n).ioRes = .AGOO_READY_IN) → 1025 < fuel →
      (((Poll.agoo_ready_go fuel beh (.ok os) now now2 (addN 1025)).1.npolled = 1025) ∧
      (∀ k, ∀ (hk : k < ((List.range 1025).reverse).length),
        (((Poll.agoo_ready_go fuel beh (.ok os) now now2 (addN 1025)).1.heap
          (((List.range 1025).reverse).get ⟨k, hk⟩)).pp = some k)))) := by
  refine ⟨fun boot h0 => rfl, ?_, ?_, ?_⟩
  · intro fd h n st
    exact (poll_add_spec fd h n st).2.2.1
  · obtain ⟨-, c5, g5, -, -⟩ := addN_spec 1025 (by norm_num)
    norm_num at c5 g5
    exact ⟨c5, g5⟩
  · intro beh os now now2 fuel hio hfuel
    obtain ⟨-, -, -, hch, -⟩ := addN_spec 1025 (by norm_num)
    have hnd : ((List.range 1025).reverse).Nodup :=
      List.nodup_reverse.mpr (List.nodup_range _)
    have hlen : ((List.range 1025).reverse).length = 1025 := by simp
    obtain ⟨p1, p2⟩ := go_polls_all beh hio ((List.range 1025).reverse) fuel (addN 1025)
      os now now2 hch hnd (by rw [hlen]; omega)
    exact ⟨by rw [p1, hlen], p2⟩

/-- Witness for C8: the all-1025-polled statement evaluated at a concrete
behavior, OS answer, times and fuel. -/
theorem C8_growth_witness :
    (((Poll.agoo_ready_go 1026 okBeh (.ok (fun _ => 0)) 0 0 (addN 1025)).1.npolled = 1025) ∧
    (∀ k, ∀ (hk : k < ((List.range 1025).reverse).length),
      (((Poll.agoo_ready_go 1026 okBeh (.ok (fun _ => 0)) 0 0 (addN 1025)).1.heap
        (((List.range 1025).reverse).get ⟨k, hk⟩)).pp = some k))) :=
  C8_growth_amended.2.2.2 okBeh (fun _ => 0) 0 0 1026 (fun n => rfl) (by norm_num)

theorem cWalk_trace_mono {σ γ : Type} (tr : σ → List γ) (nextOf : σ → Nat → Option Nat)
    (body : σ → Nat → σ) (hb : ∀ st n, ∃ δ, tr (body st n) = tr st ++ δ) (e : γ) :
    ∀ (fuel : Nat) (st : σ) (ptr : Option Nat),
      e ∈ tr st → e ∈ tr (cWalk nextOf body fuel st ptr) := by
  intro fuel st ptr he
  obtain ⟨Δ, hT, -⟩ := cWalk_trace tr nextOf body (fun _ => True)
    (fun s n => by obtain ⟨δ, hδ⟩ := hb s n; exact ⟨δ, hδ, fun _ _ => trivial⟩) fuel st ptr
  rw [hT]
  exact List.mem_append_left _ he

theorem foldl_trace_mono {σ α γ : Type} (tr : σ → List γ) (f : σ → α → σ)
    (hb : ∀ st ev, ∃ δ, tr (f st ev) = tr st ++ δ) (e : γ) :
    ∀ (evs : List α) (st : σ), e ∈ tr st → e ∈ tr (evs.foldl f st) := by
  intro evs
  induction evs with
  | nil => intro st he; exact he
  | cons ev evs ih =>
    intro st he
    apply ih
    obtain ⟨δ, hδ⟩ := hb st ev
    rw [hδ]
    exact List.mem_append_left _ he

theorem epoll_refresh_body_spec (beh : Nat → Behavior) (modErrno : Int → Nat)
    (st : Epoll.EState) (n : Nat) :
    (Event.callInterest n ((beh n).ioRes) ∈ (Epoll.epoll_refresh_body beh modErrno st n).trace) ∧
    ((Epoll.epollMaskOf ((beh n).ioRes) ≠ (st.heap n).events → modErrno (st.heap n).fd ≠ 0 →
      Event.errSet (modErrno (st.heap n).fd) ∈
        (Epoll.epoll_refresh_body beh modErrno st n).trace)) ∧
    (∃ δ, (Epoll.epoll_refresh_body beh modErrno st n).trace = st.trace ++ δ) ∧
    (∀ m, m ≠ n → (Epoll.epoll_refresh_body beh modErrno st n).heap m = st.heap m) ∧
    (∀ m, ((Epoll.epoll_refresh_body beh modErrno st n).heap m).next = (st.heap m).next) := by
  refine ⟨?_, ?_, ?_, ?_, ?_⟩
  · by_cases h1 : Epoll.epollMaskOf ((beh n).ioRes) ≠ (st.heap n).events <;>
      by_cases h2 : modErrno (st.heap n).fd ≠ 0 <;>
      simp [Epoll.epoll_refresh_body, Epoll.pushT, h1, h2]
  · intro hm he
    simp [Epoll.epoll_refresh_body, Epoll.pushT, hm, he]
  · by_cases h1 : Epoll.epollMaskOf ((beh n).ioRes) ≠ (st.heap n).events
    · by_cases h2 : modErrno (st.heap n).fd ≠ 0
      · exact ⟨[Event.callInterest n ((beh n).ioRes),
          Event.epollCtl EPOLL_CTL_MOD (st.heap n).fd (Epoll.epollMaskOf ((beh n).ioRes))
            (modErrno (st.heap n).fd), Event.errSet (modErrno (st.heap n).fd)],
          by simp [Epoll.epoll_refresh_body, Epoll.pushT, h1, h2]⟩
      · exact ⟨[Event.callInterest n ((beh n).ioRes),
          Event.epollCtl EPOLL_CTL_MOD (st.heap n).fd (Epoll.epollMaskOf ((beh n).ioRes))
            (modErrno (st.heap n).fd)],
          by simp [Epoll.epoll_refresh_body, Epoll.pushT, h1, h2]⟩
    · exact ⟨[Event.callInterest n ((beh n).ioRes)],
        by simp [Epoll.epoll_refresh_body, Epoll.pushT, h1]⟩
  · intro m hmn
    by_cases h1 : Epoll.epollMaskOf ((beh n).ioRes) ≠ (st.heap n).events <;>
      by_cases h2 : modErrno (st.heap n).fd ≠ 0 <;>
      simp [Epoll.epoll_refresh_body, Epoll.pushT, hupd, h1, h2, hmn]
  · intro m
    by_cases h1 : Epoll.epollMaskOf ((beh n).ioRes) ≠ (st.heap n).events <;>
      by_cases h2 : modErrno (st.heap n).fd ≠ 0 <;>
      simp [Epoll.epoll_refresh_body, Epoll.pushT, hupd, h1, h2] <;>
      (try split) <;> simp_all

theorem epoll_sweep_body_trace_ext (beh : Nat → Behavior) (delErrno : Int → Nat)
    (st : Epoll.EState) (n : Nat) :
    ∃ δ, (Epoll.sweep_body beh delErrno st n).trace = st.trace ++ δ := by
  by_cases h : (st.heap n).handler.hasCheck = true
  · by_cases hc : (beh n).checkRes = false
    · refine ⟨Event.callCheck n false ::
        removeTraceE (st.heap n).handler (st.heap n).fd (delErrno (st.heap n).fd) n, ?_⟩
      rw [show Epoll.sweep_body beh delErrno st n =
        Epoll.ready_remove delErrno (Epoll.pushT st (.callCheck n ((beh n).checkRes))) n by
          simp [Epoll.sweep_body, h, hc]]
      rw [epoll_remove_trace_eq]
      simp [Epoll.pushT, hc]
    · exact ⟨[Event.callCheck n ((beh n).checkRes)],
        by simp [Epoll.sweep_body, h, hc, Epoll.pushT]⟩
  · exact ⟨[], by simp [Epoll.sweep_body, h]⟩

theorem epoll_refresh_walk_cov (beh : Nat → Behavior) (modErrno : Int → Nat) :
    ∀ (l : List Nat) (fuel : Nat) (st : Epoll.EState) (ptr : Option Nat),
      chainB (fun m => (st.heap m).next) ptr l = true → l.Nodup → l.length < fuel →
      ((∀ n ∈ l,
        (Event.callInterest n ((beh n).ioRes) ∈
          (cWalk Epoll.ENext (Epoll.epoll_refresh_body beh modErrno) fuel st ptr).trace) ∧
        (Epoll.epollMaskOf ((beh n).ioRes) ≠ (st.heap n).events →
          modErrno (st.heap n).fd ≠ 0 →
          Event.errSet (modErrno (st.heap n).fd) ∈
            (cWalk Epoll.ENext (Epoll.epoll_refresh_body beh modErrno) fuel st ptr).trace)) ∧
      (∀ m, m ∉ l →
        (cWalk Epoll.ENext (Epoll.epoll_refresh_body beh modErrno) fuel st ptr).heap m =
          st.heap m)) := by
  intro l
  induction l with
  | nil =>
    intro fuel st ptr hch _ hf
    have hp : ptr = none := by simpa [chainB] using hch
    rcases fuel with _ | f
    · omega
    · subst hp
      exact ⟨fun n hn => absurd hn (List.not_mem_nil n), fun m _ => by simp [cWalk]⟩
  | cons n rest ih =>
    intro fuel st ptr hch hnd hf
    rcases fuel with _ | f
    · omega
    obtain ⟨hp, hch'⟩ : ptr = some n ∧
        chainB (fun m => (st.heap m).next) ((st.heap n).next) rest = true := by
      simpa [chainB] using hch
    subst hp
    obtain ⟨b1, b2, b3, b4, b5⟩ := epoll_refresh_body_spec beh modErrno st n
    have hnd' : rest.Nodup := (List.nodup_cons.mp hnd).2
    have hnin : n ∉ rest := (List.nodup_cons.mp hnd).1
    have hch2 : chainB (fun m => ((Epoll.epoll_refresh_body beh modErrno st n).heap m).next)
        ((st.heap n).next) rest = true := by
      have hcg := chainB_congr
        (fun m => ((Epoll.epoll_refresh_body beh modErrno st n).heap m).next)
        (fun m => (st.heap m).next) rest ((st.heap n).next)
        (fun m hm => by simp only [b5])
      rw [hcg]
      exact hch'
    have walkeq : cWalk Epoll.ENext (Epoll.epoll_refresh_body beh modErrno) (f + 1) st
        (some n) = cWalk Epoll.ENext (Epoll.epoll_refresh_body beh modErrno) f
          (Epoll.epoll_refresh_body beh modErrno st n) ((st.heap n).next) := rfl
    obtain ⟨c1, c2⟩ := ih f (Epoll.epoll_refresh_body beh modErrno st n) ((st.heap n).next)
      hch2 hnd' (by simp at hf ⊢; omega)
    have hmono := cWalk_trace_mono (fun s => s.trace) Epoll.ENext
      (Epoll.epoll_refresh_body beh modErrno)
      (fun s m => (epoll_refresh_body_spec beh modErrno s m).2.2.1)
    refine ⟨?_, ?_⟩
    · intro m hm
      rcases List.mem_cons.mp hm with he | hmem
      · subst he
        rw [walkeq]
        exact ⟨hmono _ f _ _ b1, fun hm2 he2 => hmono _ f _ _ (b2 hm2 he2)⟩
      · rw [walkeq]
        have hmn : m ≠ n := fun he => hnin (he ▸ hmem)
        have := c1 m hmem
        rw [b4 m hmn] at this
        exact this
    · intro m hm
      rw [walkeq, c2 m (fun hmem => hm (by simp [hmem])),
        b4 m (fun he => hm (by simp [he]))]



/-- C9: when an EPOLL_CTL_MOD fails during the interest-refresh pass the
failure is recorded through the error sink, the pass still visits every
Link of the snapshot chain (each gets its `io` query), and the tick
completes and returns AGOO_ERR_OK rather than aborting. -/
theorem C9_mod_failure_tick_continues (fuel : Nat) (l : List Nat) (st : Epoll.EState)
    (beh : Nat → Behavior) (modErrno delErrno : Int → Nat) (evs : List (Nat × Nat))
    (now now2 : ℚ)
    (hch : chainB (fun m => (st.heap m).next) st.links l = true) (hnd : l.Nodup)
    (hf : l.length < fuel) :
    ((Epoll.agoo_ready_go fuel beh modErrno delErrno (.ok evs) now now2 st).2 = AGOO_ERR_OK) ∧
    (∀ n ∈ l,
      (Event.callInterest n ((beh n).ioRes) ∈
        (Epoll.agoo_ready_go fuel beh modErrno delErrno (.ok evs) now now2 st).1.trace) ∧
      (Epoll.epollMaskOf ((beh n).ioRes) ≠ (st.heap n).events →
        modErrno (st.heap n).fd ≠ 0 →
        Event.errSet (modErrno (st.heap n).fd) ∈
          (Epoll.agoo_ready_go fuel beh modErrno delErrno (.ok evs) now now2 st).1.trace)) := by
  obtain ⟨cov, -⟩ := epoll_refresh_walk_cov beh modErrno l fuel st st.links hch hnd hf
  set st1 := cWalk Epoll.ENext (Epoll.epoll_refresh_body beh modErrno) fuel st st.links
    with hst1
  set st2 := evs.foldl (Epoll.epoll_dispatch_body beh delErrno) st1 with hst2
  have hd_mono : ∀ e, e ∈ st1.trace → e ∈ st2.trace := fun e he =>
    foldl_trace_mono (fun s => s.trace) (Epoll.epoll_dispatch_body beh delErrno)
      (fun s ev => by
        rcases ev with ⟨a, b⟩
        exact ⟨_, epoll_body_trace_eq beh delErrno s a b⟩) e evs st1 he
  have goeq : (Epoll.agoo_ready_go fuel beh modErrno delErrno (.ok evs) now now2 st).1 =
      (if st2.next_check ≤ now then
        { cWalk Epoll.ENext (Epoll.sweep_body beh delErrno) fuel st2 st.links with
            next_check := qadd now2 CHECK_FREQ }
        else st2) := by
    rw [Epoll.agoo_ready_go]
  have goret : (Epoll.agoo_ready_go fuel beh modErrno delErrno (.ok evs) now now2 st).2 =
      AGOO_ERR_OK := by
    rw [Epoll.agoo_ready_go]
  have final_mono : ∀ e, e ∈ st2.trace →
      e ∈ (Epoll.agoo_ready_go fuel beh modErrno delErrno (.ok evs) now now2 st).1.trace := by
    intro e he
    rw [goeq]
    split
    · simp only
      exact cWalk_trace_mono (fun s => s.trace) Epoll.ENext (Epoll.sweep_body beh delErrno)
        (fun s n => epoll_sweep_body_trace_ext beh delErrno s n) e fuel st2 st.links he
    · exact he
  refine ⟨goret, fun n hn => ?_⟩
  obtain ⟨m1, m2⟩ := cov n hn
  exact ⟨final_mono _ (hd_mono _ m1), fun hx he => final_mono _ (hd_mono _ (m2 hx he))⟩

/-- Witness for C9: a manager with one Link whose cached mask is EPOLLIN,
a behavior asking for OUT (so a MOD is issued) and a failing modify
(errno 1). -/
theorem C9_mod_failure_witness :
    ((Epoll.agoo_ready_go 2 outBeh (fun _ => 1) (fun _ => 0) (.ok []) 0 0 c4St).2 =
      AGOO_ERR_OK) ∧
    (∀ n ∈ [0],
      (Event.callInterest n ((outBeh n).ioRes) ∈
        (Epoll.agoo_ready_go 2 outBeh (fun _ => 1) (fun _ => 0) (.ok []) 0 0 c4St).1.trace) ∧
      (Epoll.epollMaskOf ((outBeh n).ioRes) ≠ (c4St.heap n).events →
        (fun (_ : Int) => (1 : Nat)) (c4St.heap n).fd ≠ 0 →
        Event.errSet ((fun (_ : Int) => (1 : Nat)) (c4St.heap n).fd) ∈
          (Epoll.agoo_ready_go 2 outBeh (fun _ => 1) (fun _ => 0) (.ok []) 0 0 c4St).1.trace)) :=
  C9_mod_failure_tick_continues 2 [0] c4St outBeh (fun _ => 1) (fun _ => 0) [] 0 0
    (by decide) (by decide) (by decide)

theorem removeTrace_classify (h : AgooHandler) (n : Nat) :
    ∀ e ∈ removeTrace h n, isCheckE e = false ∧ isDispatchCallE e = false := by
  intro e he
  simp only [removeTrace] at he
  split_ifs at he <;> fin_cases he <;> exact ⟨rfl, rfl⟩

theorem pollBodyTrace_no_check (h : AgooHandler) (b : Behavior) (pp : Option Nat)
    (rev n : Nat) : ∀ e ∈ pollBodyTrace h b pp rev n, isCheckE e = false := by
  intro e he
  rcases pp with _ | j
  · simp [pollBodyTrace] at he
  · simp only [pollBodyTrace, pollWrTrace, pollErrTrace, removeTrace] at he
    split_ifs at he <;> fin_cases he <;> rfl

theorem poll_sweep_trace_ext (beh : Nat → Behavior) (st : Poll.PState) (n : Nat) :
    ∃ δ, (Poll.sweep_body beh st n).trace = st.trace ++ δ ∧
      ∀ e ∈ δ, isDispatchCallE e = false := by
  by_cases h : (st.heap n).handler.hasCheck = true
  · by_cases hc : (beh n).checkRes = false
    · refine ⟨Event.callCheck n false :: removeTrace (st.heap n).handler n, ?_, ?_⟩
      · rw [show Poll.sweep_body beh st n =
          Poll.ready_remove (Poll.pushT st (.callCheck n ((beh n).checkRes))) n by
            simp [Poll.sweep_body, h, hc]]
        rw [poll_remove_trace_eq]
        simp [Poll.pushT, hc]
      · intro e he
        rcases List.mem_cons.mp he with he2 | he2
        · subst he2; rfl
        · exact (removeTrace_classify _ _ e he2).2
    · exact ⟨[Event.callCheck n ((beh n).checkRes)],
        by simp [Poll.sweep_body, h, hc, Poll.pushT],
        by intro e he; simp at he; simp [he, isDispatchCallE]⟩
  · exact ⟨[], by simp [Poll.sweep_body, h], by simp⟩

theorem poll_sweep_freed_ext (beh : Nat → Behavior) (st : Poll.PState) (n : Nat) :
    ∃ δ, (Poll.sweep_body beh st n).freed = st.freed ++ δ := by
  by_cases h : (st.heap n).handler.hasCheck = true
  · by_cases hc : (beh n).checkRes = false
    · refine ⟨[n], ?_⟩
      rw [show Poll.sweep_body beh st n =
        Poll.ready_remove (Poll.pushT st (.callCheck n ((beh n).checkRes))) n by
          simp [Poll.sweep_body, h, hc]]
      rw [poll_remove_freed_eq]
      simp [Poll.pushT]
    · exact ⟨[], by simp [Poll.sweep_body, h, hc, Poll.pushT]⟩
  · exact ⟨[], by simp [Poll.sweep_body, h]⟩

theorem dllB_congr (nx pv nx' pv' : Nat → Option Nat) :
    ∀ (l : List Nat) (p ptr : Option Nat),
      (∀ m ∈ l, nx m = nx' m ∧ pv m = pv' m) →
      dllB nx pv p ptr l = dllB nx' pv' p ptr l := by
  intro l
  induction l with
  | nil => intro p ptr _; rfl
  | cons n rest ih =>
    intro p ptr hm
    rw [dllB, dllB, (hm n (by simp)).1, (hm n (by simp)).2,
      ih (some n) (nx' n) (fun m hmem => hm m (by simp [hmem]))]

set_option maxRecDepth 4000 in
theorem poll_remove_heap_char (st : Poll.PState) (n : Nat) (m : Nat) :
    (((Poll.ready_remove st n).heap m).next =
      (if (st.heap n).prev = some m then (st.heap n).next else (st.heap m).next)) ∧
    (((Poll.ready_remove st n).heap m).prev =
      (if (st.heap n).next = some m then (st.heap n).prev else (st.heap m).prev)) ∧
    (((Poll.ready_remove st n).heap m).handler = (st.heap m).handler) := by
  rcases h1 : (st.heap n).prev with _ | p <;> rcases h2 : (st.heap n).next with _ | nx <;>
    rcases h3 : (st.heap n).handler.hasDestroy <;>
    refine ⟨?_, ?_, ?_⟩ <;>
    simp only [Poll.ready_remove, Poll.pushT, hupd, h1, h2, h3] <;>
    split_ifs <;> simp_all [hupd] <;> (try split_ifs) <;> simp_all



theorem poll_sweep_keep_heap (beh : Nat → Behavior) (st : Poll.PState) (n : Nat)
    (h : ¬((st.heap n).handler.hasCheck = true ∧ (beh n).checkRes = false)) :
    (Poll.sweep_body beh st n).heap = st.heap := by
  by_cases h1 : (st.heap n).handler.hasCheck = true
  · have h2 : ¬((beh n).checkRes = false) := fun hc => h ⟨h1, hc⟩
    simp [Poll.sweep_body, h1, h2, Poll.pushT]
  · simp [Poll.sweep_body, h1]

theorem poll_sweep_remove_eq (beh : Nat → Behavior) (st : Poll.PState) (n : Nat)
    (h1 : (st.heap n).handler.hasCheck = true) (h2 : (beh n).checkRes = false) :
    Poll.sweep_body beh st n =
      Poll.ready_remove (Poll.pushT st (.callCheck n ((beh n).checkRes))) n := by
  simp [Poll.sweep_body, h1, h2]

theorem dll_after_remove (st st' : Poll.PState) (n0 : Nat) (rest : List Nat)
    (p? : Option Nat)
    (hheap : ∀ m, ((st'.heap m).next =
        (if (st.heap n0).prev = some m then (st.heap n0).next else (st.heap m).next)) ∧
      ((st'.heap m).prev =
        (if (st.heap n0).next = some m then (st.heap n0).prev else (st.heap m).prev)))
    (hpv : (st.heap n0).prev = p?)
    (hrest : dllB (fun m => (st.heap m).next) (fun m => (st.heap m).prev) (some n0)
      ((st.heap n0).next) rest = true)
    (hout : outB p? (n0 :: rest) = true) (hnd : (n0 :: rest).Nodup) :
    dllB (fun m => (st'.heap m).next) (fun m => (st'.heap m).prev) p?
      ((st.heap n0).next) rest = true := by
  have houtx : ∀ x, p? = some x → x ∉ (n0 :: rest) := by
    intro x hx hmem
    rcases p? with _ | y
    · exact Option.noConfusion hx
    · have hy : y = x := by injection hx
      subst hy
      simp [outB] at hout
      rcases List.mem_cons.mp hmem with he | he
      · exact hout.1 he
      · exact hout.2 he
  rcases rest with _ | ⟨r0, rest'⟩
  · simpa [dllB] using hrest
  · obtain ⟨⟨hptr, hpv0⟩, htail⟩ : ((st.heap n0).next = some r0 ∧
        (st.heap r0).prev = some n0) ∧
        dllB (fun m => (st.heap m).next) (fun m => (st.heap m).prev) (some r0)
          ((st.heap r0).next) rest' = true := by
      simpa [dllB, Bool.and_eq_true, beq_iff_eq] using hrest
    have hpne : p? ≠ some r0 := fun he => houtx r0 he (by simp)
    have hr0notin : r0 ∉ rest' := (List.nodup_cons.mp (List.nodup_cons.mp hnd).2).1
    have hnx0 : (st'.heap r0).prev = p? := by
      rw [(hheap r0).2, if_pos hptr, hpv]
    have hnxr0 : (st'.heap r0).next = (st.heap r0).next := by
      rw [(hheap r0).1, if_neg]
      rw [hpv]
      exact hpne
    have hcong : dllB (fun m => (st'.heap m).next) (fun m => (st'.heap m).prev) (some r0)
        ((st.heap r0).next) rest' =
        dllB (fun m => (st.heap m).next) (fun m => (st.heap m).prev) (some r0)
          ((st.heap r0).next) rest' := by
      apply dllB_congr
      intro m hm
      constructor
      · rw [(hheap m).1, if_neg]
        rw [hpv]
        exact fun he => houtx m he (by simp [hm])
      · rw [(hheap m).2, if_neg]
        rw [hptr]
        intro he
        have : r0 = m := by injection he
        exact hr0notin (this ▸ hm)
    simp only [dllB, Bool.and_eq_true, beq_iff_eq]
    refine ⟨⟨hptr, hnx0⟩, ?_⟩
    rw [hnxr0, hcong]
    exact htail



theorem poll_sweep_walk_cov (beh : Nat → Behavior) :
    ∀ (l : List Nat) (fuel : Nat) (st : Poll.PState) (p? ptr : Option Nat),
      dllB (fun m => (st.heap m).next) (fun m => (st.heap m).prev) p? ptr l = true →
      l.Nodup → outB p? l = true → l.length < fuel →
      ∀ n ∈ l, (st.heap n).handler.hasCheck = true →
        ((Event.callCheck n ((beh n).checkRes) ∈
          (cWalk Poll.PNext (Poll.sweep_body beh) fuel st ptr).trace) ∧
        ((beh n).checkRes = false →
          n ∈ (cWalk Poll.PNext (Poll.sweep_body beh) fuel st ptr).freed)) := by
  intro l
  induction l with
  | nil => intro fuel st p? ptr _ _ _ _ n hn; exact absurd hn (List.not_mem_nil n)
  | cons n0 rest ih =>
    intro fuel st p? ptr hdll hnd hout hf n hn hck
    rcases fuel with _ | f
    · omega
    obtain ⟨⟨hp, hpv⟩, hrest⟩ : (ptr = some n0 ∧ (st.heap n0).prev = p?) ∧
        dllB (fun m => (st.heap m).next) (fun m => (st.heap m).prev) (some n0)
          ((st.heap n0).next) rest = true := by
      simpa [dllB, Bool.and_eq_true, beq_iff_eq] using hdll
    subst hp
    have hnd' : rest.Nodup := (List.nodup_cons.mp hnd).2
    have hn0nin : n0 ∉ rest := (List.nodup_cons.mp hnd).1
    have hout' : outB p? rest = true := by
      rcases p? with _ | y
      · rfl
      · simp [outB] at hout ⊢
        exact hout.2
    have tr_mono : ∀ (e : Event) (st' : Poll.PState) (ptr' : Option Nat), e ∈ st'.trace →
        e ∈ (cWalk Poll.PNext (Poll.sweep_body beh) f st' ptr').trace :=
      fun e st' ptr' he => cWalk_trace_mono (fun s => s.trace) Poll.PNext
        (Poll.sweep_body beh)
        (fun s m => (poll_sweep_trace_ext beh s m).elim (fun δ hδ => ⟨δ, hδ.1⟩))
        e f st' ptr' he
    have fr_mono : ∀ (x : Nat) (st' : Poll.PState) (ptr' : Option Nat), x ∈ st'.freed →
        x ∈ (cWalk Poll.PNext (Poll.sweep_body beh) f st' ptr').freed :=
      fun x st' ptr' hx => cWalk_trace_mono (fun s => s.freed) Poll.PNext
        (Poll.sweep_body beh)
        (fun s m => poll_sweep_freed_ext beh s m)
        x f st' ptr' hx
    have walkeq : cWalk Poll.PNext (Poll.sweep_body beh) (f + 1) st (some n0) =
        cWalk Poll.PNext (Poll.sweep_body beh) f (Poll.sweep_body beh st n0)
          ((st.heap n0).next) := rfl
    rcases List.mem_cons.mp hn with he | hmem
    · subst he
      by_cases hc0 : (beh n).checkRes = false
      · have heq := poll_sweep_remove_eq beh st n hck hc0
        have htr : Event.callCheck n ((beh n).checkRes) ∈ (Poll.sweep_body beh st n).trace := by
          rw [heq, poll_remove_trace_eq]
          simp [Poll.pushT]
        have hfr : n ∈ (Poll.sweep_body beh st n).freed := by
          rw [heq, poll_remove_freed_eq]
          simp [Poll.pushT]
        rw [walkeq]
        exact ⟨tr_mono _ _ _ htr, fun _ => fr_mono _ _ _ hfr⟩
      · have heq : Poll.sweep_body beh st n = Poll.pushT st (.callCheck n ((beh n).checkRes)) := by
          simp [Poll.sweep_body, hck, hc0]
        have htr : Event.callCheck n ((beh n).checkRes) ∈ (Poll.sweep_body beh st n).trace := by
          rw [heq]
          simp [Poll.pushT]
        rw [walkeq]
        exact ⟨tr_mono _ _ _ htr, fun hcf => absurd hcf hc0⟩
    · by_cases hk0 : (st.heap n0).handler.hasCheck = true ∧ (beh n0).checkRes = false
      · -- the head is unregistered by the sweep: use the heap characterization
        have heq := poll_sweep_remove_eq beh st n0 hk0.1 hk0.2
        have hchar : ∀ m, (((Poll.sweep_body beh st n0).heap m).next =
            (if (st.heap n0).prev = some m then (st.heap n0).next else (st.heap m).next)) ∧
          (((Poll.sweep_body beh st n0).heap m).prev =
            (if (st.heap n0).next = some m then (st.heap n0).prev else (st.heap m).prev)) ∧
          (((Poll.sweep_body beh st n0).heap m).handler = (st.heap m).handler) := by
          intro m
          have hc := poll_remove_heap_char (Poll.pushT st (.callCheck n0 ((beh n0).checkRes)))
            n0 m
          simp only [Poll.pushT] at hc
          rw [heq]
          exact hc
        have hdll' := dll_after_remove st (Poll.sweep_body beh st n0) n0 rest p?
          (fun m => ⟨(hchar m).1, (hchar m).2.1⟩) hpv hrest hout hnd
        have hck' : ((Poll.sweep_body beh st n0).heap n).handler.hasCheck = true := by
          rw [(hchar n).2.2]
          exact hck
        rw [walkeq]
        obtain ⟨hptr0, -⟩ : ((st.heap n0).next = (st.heap n0).next) ∧ True := ⟨rfl, trivial⟩
        exact ih f (Poll.sweep_body beh st n0) p? ((st.heap n0).next) hdll' hnd' hout'
          (by simp at hf ⊢; omega) n hmem hck'
      · have hkeep := poll_sweep_keep_heap beh st n0 hk0
        have hdll' : dllB (fun m => ((Poll.sweep_body beh st n0).heap m).next)
            (fun m => ((Poll.sweep_body beh st n0).heap m).prev) (some n0)
            ((st.heap n0).next) rest = true := by
          rw [hkeep]
          exact hrest
        have hout2 : outB (some n0) rest = true := by
          simp [outB, hn0nin]
        have hck' : ((Poll.sweep_body beh st n0).heap n).handler.hasCheck = true := by
          rw [hkeep]
          exact hck
        rw [walkeq]
        exact ih f (Poll.sweep_body beh st n0) (some n0) ((st.heap n0).next) hdll' hnd' hout2
          (by simp at hf ⊢; omega) n hmem hck'



theorem poll_refresh_body_node (beh : Nat → Behavior) (st : Poll.PState) (n : Nat) :
    ∀ m, (((Poll.poll_refresh_body beh st n).heap m).next = (st.heap m).next) ∧
      (((Poll.poll_refresh_body beh st n).heap m).prev = (st.heap m).prev) ∧
      (((Poll.poll_refresh_body beh st n).heap m).handler = (st.heap m).handler) := by
  intro m
  rcases h : (beh n).ioRes <;>
    refine ⟨?_, ?_, ?_⟩ <;>
    simp [Poll.poll_refresh_body, Poll.pushT, hupd, h] <;>
    split <;> simp_all

theorem poll_dispatch_body_trace_nc (beh : Nat → Behavior) (s : Poll.PState) (n : Nat) :
    ∃ δ, (Poll.poll_dispatch_body beh s n).trace = s.trace ++ δ ∧
      ∀ e ∈ δ, isCheckE e = false := by
  rcases hpp : (s.heap n).pp with _ | j
  · exact ⟨[], by simp [Poll.poll_dispatch_body, hpp], by simp⟩
  · exact ⟨pollBodyTrace (s.heap n).handler (beh n) (some j) ((s.slots j).revents) n,
      poll_body_trace_eq beh s n j hpp,
      pollBodyTrace_no_check (s.heap n).handler (beh n) (some j) ((s.slots j).revents) n⟩

theorem poll_refresh_trace_nc (beh : Nat → Behavior) (s : Poll.PState) (n : Nat) :
    ∃ δ, (Poll.poll_refresh_body beh s n).trace = s.trace ++ δ ∧
      ∀ e ∈ δ, isCheckE e = false := by
  obtain ⟨δ, h1, h2⟩ := poll_refresh_body_trace beh s n
  exact ⟨δ, h1, fun e he => by have := h2 e he; rcases e <;> simp_all [isInterestE, isCheckE]⟩

theorem countReady_zero (nfds : Nat) : Poll.countReady (fun _ => 0) nfds = 0 := by
  simp [Poll.countReady]



theorem go_idle_eq (fuel : Nat) (beh : Nat → Behavior) (now now2 : ℚ) (st : Poll.PState) :
    (Poll.agoo_ready_go fuel beh (.ok (fun _ => 0)) now now2 st).1 =
      (if (Poll.fillRevents (cWalk Poll.PNext (Poll.poll_refresh_body beh) fuel
            { st with npolled := 0 } st.links) (fun _ => 0)
            (cWalk Poll.PNext (Poll.poll_refresh_body beh) fuel { st with npolled := 0 }
              st.links).npolled).next_check ≤ now then
        { cWalk Poll.PNext (Poll.sweep_body beh) fuel
            (Poll.fillRevents (cWalk Poll.PNext (Poll.poll_refresh_body beh) fuel
              { st with npolled := 0 } st.links) (fun _ => 0)
              (cWalk Poll.PNext (Poll.poll_refresh_body beh) fuel { st with npolled := 0 }
                st.links).npolled) st.links with
            next_check := qadd now2 CHECK_FREQ }
      else Poll.fillRevents (cWalk Poll.PNext (Poll.poll_refresh_body beh) fuel
        { st with npolled := 0 } st.links) (fun _ => 0)
        (cWalk Poll.PNext (Poll.poll_refresh_body beh) fuel { st with npolled := 0 }
          st.links).npolled) := by
  rw [Poll.agoo_ready_go]
  simp only [countReady_zero, lt_self_iff_false, if_false]

/-- If every step of a walk can only append to a monotone log and a step that
appends nothing leaves `f` unchanged, then a whole walk that appends nothing
leaves `f` unchanged. -/
theorem cWalk_stable {σ α β : Type} (fr : σ → List β) (f : σ → α)
    (nextOf : σ → Nat → Option Nat) (body : σ → Nat → σ)
    (hb : ∀ s n, ∃ δ, fr (body s n) = fr s ++ δ)
    (hs : ∀ s n, fr (body s n) = fr s → f (body s n) = f s) :
    ∀ (fuel : Nat) (st : σ) (ptr : Option Nat),
      fr (cWalk nextOf body fuel st ptr) = fr st →
      f (cWalk nextOf body fuel st ptr) = f st := by
  intro fuel
  induction fuel with
  | zero => intro st ptr _; rfl
  | succ m ih =>
    intro st ptr hfr
    cases ptr with
    | none => rfl
    | some n =>
      rw [cWalk] at hfr ⊢
      obtain ⟨δ1, h1⟩ := hb st n
      obtain ⟨Δ, h2, -⟩ := cWalk_trace fr nextOf body (fun _ => True)
        (fun s k => by obtain ⟨δ, hδ⟩ := hb s k; exact ⟨δ, hδ, fun _ _ => trivial⟩)
        m (body st n) (nextOf st n)
      rw [h2, h1, List.append_assoc] at hfr
      have hlen := congrArg List.length hfr
      rw [List.length_append, List.length_append] at hlen
      have hd1 : δ1 = [] := List.eq_nil_of_length_eq_zero (by omega)
      have hD : Δ = [] := List.eq_nil_of_length_eq_zero (by omega)
      have hf1 : fr (body st n) = fr st := by rw [h1, hd1, List.append_nil]
      have hw : fr (cWalk nextOf body m (body st n) (nextOf st n)) = fr (body st n) := by
        rw [h2, hD, List.append_nil]
      rw [ih (body st n) (nextOf st n) hw, hs st n hf1]

/-- The poll dispatch body only ever appends to the freed list. -/
theorem poll_dispatch_body_freed_ext (beh : Nat → Behavior) (s : Poll.PState) (n : Nat) :
    ∃ δ, (Poll.poll_dispatch_body beh s n).freed = s.freed ++ δ := by
  rcases hpp : (s.heap n).pp with _ | j
  · exact ⟨[], by simp [Poll.poll_dispatch_body, hpp]⟩
  · exact ⟨_, poll_body_freed_eq beh s n j hpp⟩

/-- A poll dispatch step that frees nothing did not call `ready_remove`,
so it left the whole heap (in particular every link's next, prev and
handler) untouched: dispatch only pushes trace events otherwise. -/
theorem poll_dispatch_body_nofree (beh : Nat → Behavior) (s : Poll.PState) (n : Nat)
    (h : (Poll.poll_dispatch_body beh s n).freed = s.freed) :
    (Poll.poll_dispatch_body beh s n).heap = s.heap := by
  rcases hpp : (s.heap n).pp with _ | j
  · simp [Poll.poll_dispatch_body, hpp]
  · have hrm : pollBodyRemoves (s.heap n).handler (beh n) (some j)
        ((s.slots j).revents) = false := by
      by_contra hc
      rw [Bool.not_eq_false] at hc
      rw [poll_body_freed_eq beh s n j hpp, hc] at h
      simp only [if_pos rfl] at h
      have hlen := congrArg List.length h
      rw [List.length_append] at hlen
      simp at hlen
    simp only [pollBodyRemoves] at hrm
    have h1 : ¬((s.slots j).revents &&& POLLIN ≠ 0 ∧ (s.heap n).handler.hasRead = true ∧
        (beh n).readRes = false) := by
      intro hc
      simp [hc] at hrm
    have h2 : ¬((s.slots j).revents &&& POLLOUT ≠ 0 ∧ (s.heap n).handler.hasWrite = true ∧
        (beh n).writeRes = false) := by
      intro hc
      simp [hc] at hrm
    have h3 : ((s.slots j).revents &&& (POLLERR ||| POLLHUP ||| POLLNVAL)) = 0 := by
      by_contra hc
      simp [h1, h2, hc] at hrm
    by_cases hA : (s.slots j).revents &&& POLLIN ≠ 0 ∧ (s.heap n).handler.hasRead = true <;>
      by_cases hB : (s.slots j).revents &&& POLLOUT ≠ 0 ∧
        (s.heap n).handler.hasWrite = true <;>
      by_cases hr : (beh n).readRes = false <;>
      by_cases hw : (beh n).writeRes = false
    all_goals try exact absurd (And.intro hA.1 (And.intro hA.2 hr)) h1
    all_goals try exact absurd (And.intro hB.1 (And.intro hB.2 hw)) h2
    all_goals simp [Poll.poll_dispatch_body, Poll.poll_dispatch_wr, Poll.poll_dispatch_err,
      hpp, hA, hB, hr, hw, h3, Poll.pushT]

/-- C7: amended sweep property. (1) No sweep in a tick with now < next_check:
next_check is unchanged and the tick emits no check call, for every poll
outcome. (2) Every tick's trace splits as dispatch-phase events (never check
calls) followed by sweep-phase events (never dispatch read/write/error calls):
when the sweep runs it runs after all dispatches. (3) If the snapshot is a
well-formed doubly-linked chain and the refresh-and-dispatch phase of the
tick unregisters no Link (its freed list is the tick-start freed list), a
due sweep invokes handler.check on every snapshot Link whose handler
defines check, and unregisters (frees) those whose check returns false;
the unconditional per-snapshot-Link guarantee fails as soon as dispatch
does unregister a Link, see the counterexample. (4) A tick that runs the sweep
sets next_check to now2 + 1/2. (5) Hence at least 0.5 seconds separate two
consecutive sweeps. -/
theorem C7_sweep_amended :
    (∀ (fuel : Nat) (beh : Nat → Behavior) (outcome : Poll.PollOutcome) (now now2 : ℚ)
        (st : Poll.PState), now < st.next_check →
      (((Poll.agoo_ready_go fuel beh outcome now now2 st).1.next_check = st.next_check) ∧
      ∃ δ, (Poll.agoo_ready_go fuel beh outcome now now2 st).1.trace = st.trace ++ δ ∧
        ∀ e ∈ δ, isCheckE e = false)) ∧
    (∀ (fuel : Nat) (beh : Nat → Behavior) (outcome : Poll.PollOutcome) (now now2 : ℚ)
        (st : Poll.PState),
      ∃ δ₁ δ₂, (Poll.agoo_ready_go fuel beh outcome now now2 st).1.trace =
          st.trace ++ δ₁ ++ δ₂ ∧
        (∀ e ∈ δ₁, isCheckE e = false) ∧ (∀ e ∈ δ₂, isDispatchCallE e = false)) ∧
    (∀ (fuel : Nat) (beh : Nat → Behavior) (os : Nat → Nat) (now now2 : ℚ)
        (st : Poll.PState) (l : List Nat),
      dllB (fun m => (st.heap m).next) (fun m => (st.heap m).prev) none st.links l = true →
      l.Nodup → l.length < fuel → st.next_check ≤ now →
      (if 0 < Poll.countReady os
          (cWalk Poll.PNext (Poll.poll_refresh_body beh) fuel { st with npolled := 0 }
            st.links).npolled then
        cWalk Poll.PNext (Poll.poll_dispatch_body beh) fuel
          (Poll.fillRevents
            (cWalk Poll.PNext (Poll.poll_refresh_body beh) fuel { st with npolled := 0 }
              st.links) os
            (cWalk Poll.PNext (Poll.poll_refresh_body beh) fuel { st with npolled := 0 }
              st.links).npolled)
          st.links
      else
        Poll.fillRevents
          (cWalk Poll.PNext (Poll.poll_refresh_body beh) fuel { st with npolled := 0 }
            st.links) os
          (cWalk Poll.PNext (Poll.poll_refresh_body beh) fuel { st with npolled := 0 }
            st.links).npolled).freed = st.freed →
      ∀ n ∈ l, (st.heap n).handler.hasCheck = true →
        ((Event.callCheck n ((beh n).checkRes) ∈
          (Poll.agoo_ready_go fuel beh (.ok os) now now2 st).1.trace) ∧
        ((beh n).checkRes = false →
          n ∈ (Poll.agoo_ready_go fuel beh (.ok os) now now2 st).1.freed))) ∧
    (∀ (fuel : Nat) (beh : Nat → Behavior) (os : Nat → Nat) (now now2 : ℚ)
        (st : Poll.PState), st.next_check ≤ now →
      (Poll.agoo_ready_go fuel beh (.ok os) now now2 st).1.next_check = now2 + 1 / 2) ∧
    (∀ (fuel1 : Nat) (beh1 : Nat → Behavior) (os1 : Nat → Nat) (now1 now1' now2 : ℚ)
        (st : Poll.PState),
      st.next_check ≤ now1 → now1 ≤ now1' →
      (Poll.agoo_ready_go fuel1 beh1 (.ok os1) now1 now1' st).1.next_check ≤ now2 →
      now1 + 1 / 2 ≤ now2) := by
  have hnc4 : ∀ (fuel : Nat) (beh : Nat → Behavior) (os : Nat → Nat) (st : Poll.PState),
      (if 0 < Poll.countReady os
          (cWalk Poll.PNext (Poll.poll_refresh_body beh) fuel { st with npolled := 0 }
            st.links).npolled then
        cWalk Poll.PNext (Poll.poll_dispatch_body beh) fuel
          (Poll.fillRevents
            (cWalk Poll.PNext (Poll.poll_refresh_body beh) fuel { st with npolled := 0 }
              st.links) os
            (cWalk Poll.PNext (Poll.poll_refresh_body beh) fuel { st with npolled := 0 }
              st.links).npolled)
          st.links
      else
        Poll.fillRevents
          (cWalk Poll.PNext (Poll.poll_refresh_body beh) fuel { st with npolled := 0 }
            st.links) os
          (cWalk Poll.PNext (Poll.poll_refresh_body beh) fuel { st with npolled := 0 }
            st.links).npolled).next_check = st.next_check := by
    intro fuel beh os st
    have hr := cWalk_pres (fun s => s.next_check) Poll.PNext (Poll.poll_refresh_body beh)
      (fun s n => (poll_refresh_body_pres beh s n).1) fuel { st with npolled := 0 } st.links
    split
    · rw [cWalk_pres (fun s => s.next_check) Poll.PNext (Poll.poll_dispatch_body beh)
        (fun s n => (poll_dispatch_body_keeps beh s n).2.1) fuel _ st.links]
      simpa [Poll.fillRevents] using hr
    · simpa [Poll.fillRevents] using hr
  have goeq : ∀ (fuel : Nat) (beh : Nat → Behavior) (os : Nat → Nat) (now now2 : ℚ)
      (st : Poll.PState),
      (Poll.agoo_ready_go fuel beh (.ok os) now now2 st).1 =
        (let st2 := cWalk Poll.PNext (Poll.poll_refresh_body beh) fuel
          { st with npolled := 0 } st.links
        let st3 := Poll.fillRevents st2 os st2.npolled
        let st4 := if 0 < Poll.countReady os st2.npolled then
          cWalk Poll.PNext (Poll.poll_dispatch_body beh) fuel st3 st.links else st3
        if st4.next_check ≤ now then
          { cWalk Poll.PNext (Poll.sweep_body beh) fuel st4 st.links with
              next_check := qadd now2 CHECK_FREQ }
        else st4) := by
    intro fuel beh os now now2 st
    rw [Poll.agoo_ready_go]
  have upd : ∀ (fuel : Nat) (beh : Nat → Behavior) (os : Nat → Nat) (now now2 : ℚ)
      (st : Poll.PState), st.next_check ≤ now →
      (Poll.agoo_ready_go fuel beh (.ok os) now now2 st).1.next_check = now2 + 1 / 2 := by
    intro fuel beh os now now2 st hle
    rw [goeq]
    simp only
    rw [if_pos (by rw [hnc4]; exact hle)]
    show qadd now2 CHECK_FREQ = now2 + 1 / 2
    rw [qadd_eq_add, CHECK_FREQ_eq_half]
  refine ⟨?_, ?_, ?_, ?_, ?_⟩
  · intro fuel beh outcome now now2 st hlt
    rcases outcome with os | errno
    · rw [goeq]
      simp only
      rw [if_neg (by rw [hnc4]; exact not_le.mpr hlt)]
      constructor
      · rw [hnc4]
      · obtain ⟨Δr, hTr, hPr⟩ := cWalk_trace (fun s => s.trace) Poll.PNext
          (Poll.poll_refresh_body beh) (fun e => isCheckE e = false)
          (poll_refresh_trace_nc beh) fuel { st with npolled := 0 } st.links
        split
        · obtain ⟨Δd, hTd, hPd⟩ := cWalk_trace (fun s => s.trace) Poll.PNext
            (Poll.poll_dispatch_body beh) (fun e => isCheckE e = false)
            (poll_dispatch_body_trace_nc beh) fuel
            (Poll.fillRevents (cWalk Poll.PNext (Poll.poll_refresh_body beh) fuel
              { st with npolled := 0 } st.links) os
              (cWalk Poll.PNext (Poll.poll_refresh_body beh) fuel { st with npolled := 0 }
                st.links).npolled) st.links
          refine ⟨Δr ++ Δd, ?_, ?_⟩
          · rw [hTd]
            simp only [Poll.fillRevents]
            rw [hTr]
            simp [List.append_assoc]
          · intro e he
            rcases List.mem_append.mp he with h | h
            · exact hPr e h
            · exact hPd e h
        · refine ⟨Δr, ?_, hPr⟩
          simp only [Poll.fillRevents]
          rw [hTr]
    · obtain ⟨Δr, hTr, hPr⟩ := cWalk_trace (fun s => s.trace) Poll.PNext
        (Poll.poll_refresh_body beh) (fun e => isCheckE e = false)
        (poll_refresh_trace_nc beh) fuel { st with npolled := 0 } st.links
      have hr := cWalk_pres (fun s => s.next_check) Poll.PNext (Poll.poll_refresh_body beh)
        (fun s n => (poll_refresh_body_pres beh s n).1) fuel { st with npolled := 0 } st.links
      by_cases he : errno = EAGAIN
      · subst he
        rw [Poll.agoo_ready_go]
        simp only [if_pos rfl]
        exact ⟨by simpa using hr, Δr, by simpa using hTr, hPr⟩
      · rw [Poll.agoo_ready_go]
        simp only [if_neg he]
        refine ⟨by simpa [Poll.pushT] using hr, Δr ++ [Event.errSet errno, Event.logErr],
          ?_, ?_⟩
        · simp [Poll.pushT]
          rw [hTr]
          simp
        · intro e he2
          rcases List.mem_append.mp he2 with h | h
          · exact hPr e h
          · simp at h
            rcases h with h | h <;> simp [h, isCheckE]
  · intro fuel beh outcome now now2 st
    rcases outcome with os | errno
    · obtain ⟨Δr, hTr, hPr⟩ := cWalk_trace (fun s => s.trace) Poll.PNext
        (Poll.poll_refresh_body beh) (fun e => isCheckE e = false)
        (poll_refresh_trace_nc beh) fuel { st with npolled := 0 } st.links
      have hT4 : ∃ δ₁, ((if 0 < Poll.countReady os
          (cWalk Poll.PNext (Poll.poll_refresh_body beh) fuel { st with npolled := 0 }
            st.links).npolled then
        cWalk Poll.PNext (Poll.poll_dispatch_body beh) fuel
          (Poll.fillRevents
            (cWalk Poll.PNext (Poll.poll_refresh_body beh) fuel { st with npolled := 0 }
              st.links) os
            (cWalk Poll.PNext (Poll.poll_refresh_body beh) fuel { st with npolled := 0 }
              st.links).npolled)
          st.links
      else
        Poll.fillRevents
          (cWalk Poll.PNext (Poll.poll_refresh_body beh) fuel { st with npolled := 0 }
            st.links) os
          (cWalk Poll.PNext (Poll.poll_refresh_body beh) fuel { st with npolled := 0 }
            st.links).npolled)).trace = st.trace ++ δ₁ ∧
          ∀ e ∈ δ₁, isCheckE e = false := by
        split
        · obtain ⟨Δd, hTd, hPd⟩ := cWalk_trace (fun s => s.trace) Poll.PNext
            (Poll.poll_dispatch_body beh) (fun e => isCheckE e = false)
            (poll_dispatch_body_trace_nc beh) fuel
            (Poll.fillRevents (cWalk Poll.PNext (Poll.poll_refresh_body beh) fuel
              { st with npolled := 0 } st.links) os
              (cWalk Poll.PNext (Poll.poll_refresh_body beh) fuel { st with npolled := 0 }
                st.links).npolled) st.links
          refine ⟨Δr ++ Δd, ?_, ?_⟩
          · rw [hTd]
            simp only [Poll.fillRevents]
            rw [hTr]
            simp [List.append_assoc]
          · intro e he
            rcases List.mem_append.mp he with h | h
            · exact hPr e h
            · exact hPd e h
        · refine ⟨Δr, ?_, hPr⟩
          simp only [Poll.fillRevents]
          rw [hTr]
      obtain ⟨δ₁, hδ₁, hP1⟩ := hT4
      rw [goeq]
      simp only
      by_cases hg : ((if 0 < Poll.countReady os
          (cWalk Poll.PNext (Poll.poll_refresh_body beh) fuel { st with npolled := 0 }
            st.links).npolled then
        cWalk Poll.PNext (Poll.poll_dispatch_body beh) fuel
          (Poll.fillRevents
            (cWalk Poll.PNext (Poll.poll_refresh_body beh) fuel { st with npolled := 0 }
              st.links) os
            (cWalk Poll.PNext (Poll.poll_refresh_body beh) fuel { st with npolled := 0 }
              st.links).npolled)
          st.links
      else
        Poll.fillRevents
          (cWalk Poll.PNext (Poll.poll_refresh_body beh) fuel { st with npolled := 0 }
            st.links) os
          (cWalk Poll.PNext (Poll.poll_refresh_body beh) fuel { st with npolled := 0 }
            st.links).npolled)).next_check ≤ now
      · rw [if_pos hg]
        obtain ⟨Δs, hTs, hPs⟩ := cWalk_trace (fun s => s.trace) Poll.PNext
          (Poll.sweep_body beh) (fun e => isDispatchCallE e = false)
          (fun s k => poll_sweep_trace_ext beh s k) fuel
          (if 0 < Poll.countReady os
          (cWalk Poll.PNext (Poll.poll_refresh_body beh) fuel { st with npolled := 0 }
            st.links).npolled then
        cWalk Poll.PNext (Poll.poll_dispatch_body beh) fuel
          (Poll.fillRevents
            (cWalk Poll.PNext (Poll.poll_refresh_body beh) fuel { st with npolled := 0 }
              st.links) os
            (cWalk Poll.PNext (Poll.poll_refresh_body beh) fuel { st with npolled := 0 }
              st.links).npolled)
          st.links
      else
        Poll.fillRevents
          (cWalk Poll.PNext (Poll.poll_refresh_body beh) fuel { st with npolled := 0 }
            st.links) os
          (cWalk Poll.PNext (Poll.poll_refresh_body beh) fuel { st with npolled := 0 }
            st.links).npolled) st.links
        exact ⟨δ₁, Δs, hTs.trans (by rw [hδ₁]), hP1, hPs⟩
      · rw [if_neg hg]
        exact ⟨δ₁, [], by rw [hδ₁]; simp, hP1, by simp⟩
    · obtain ⟨Δr, hTr, hPr⟩ := cWalk_trace (fun s => s.trace) Poll.PNext
        (Poll.poll_refresh_body beh) (fun e => isCheckE e = false)
        (poll_refresh_trace_nc beh) fuel { st with npolled := 0 } st.links
      by_cases he : errno = EAGAIN
      · subst he
        rw [Poll.agoo_ready_go]
        simp only [if_pos rfl]
        refine ⟨Δr, [], ?_, hPr, by simp⟩
        simpa using hTr
      · rw [Poll.agoo_ready_go]
        simp only [if_neg he]
        refine ⟨Δr ++ [Event.errSet errno, Event.logErr], [], ?_, ?_, by simp⟩
        · simp [Poll.pushT]
          rw [hTr]
          simp
        · intro e he2
          rcases List.mem_append.mp he2 with h | h
          · exact hPr e h
          · simp at h
            rcases h with h | h <;> simp [h, isCheckE]
  · intro fuel beh os now now2 st l hdll hnd hf hle hfr n hn hck
    have hh3 : ∀ m,
        (((Poll.fillRevents
        (cWalk Poll.PNext (Poll.poll_refresh_body beh) fuel { st with npolled := 0 }
          st.links) os
        (cWalk Poll.PNext (Poll.poll_refresh_body beh) fuel { st with npolled := 0 }
          st.links).npolled).heap m).next = (st.heap m).next) ∧
        (((Poll.fillRevents
        (cWalk Poll.PNext (Poll.poll_refresh_body beh) fuel { st with npolled := 0 }
          st.links) os
        (cWalk Poll.PNext (Poll.poll_refresh_body beh) fuel { st with npolled := 0 }
          st.links).npolled).heap m).prev = (st.heap m).prev) ∧
        (((Poll.fillRevents
        (cWalk Poll.PNext (Poll.poll_refresh_body beh) fuel { st with npolled := 0 }
          st.links) os
        (cWalk Poll.PNext (Poll.poll_refresh_body beh) fuel { st with npolled := 0 }
          st.links).npolled).heap m).handler = (st.heap m).handler) := by
      intro m
      have h3 := cWalk_pres
        (fun s => (((s.heap m).next, (s.heap m).prev, (s.heap m).handler)))
        Poll.PNext (Poll.poll_refresh_body beh)
        (fun s k => by
          obtain ⟨a, b, c⟩ := poll_refresh_body_node beh s k m
          simp [a, b, c])
        fuel { st with npolled := 0 } st.links
      simp only [Prod.mk.injEq] at h3
      simpa [Poll.fillRevents] using h3
    have hfill : (Poll.fillRevents
        (cWalk Poll.PNext (Poll.poll_refresh_body beh) fuel { st with npolled := 0 }
          st.links) os
        (cWalk Poll.PNext (Poll.poll_refresh_body beh) fuel { st with npolled := 0 }
          st.links).npolled).freed = st.freed := by
      have hr := cWalk_pres (fun s => s.freed) Poll.PNext (Poll.poll_refresh_body beh)
        (fun s k => (poll_refresh_body_pres beh s k).2.1) fuel { st with npolled := 0 }
        st.links
      simpa [Poll.fillRevents] using hr
    have hnc3 : (Poll.fillRevents
        (cWalk Poll.PNext (Poll.poll_refresh_body beh) fuel { st with npolled := 0 }
          st.links) os
        (cWalk Poll.PNext (Poll.poll_refresh_body beh) fuel { st with npolled := 0 }
          st.links).npolled).next_check = st.next_check := by
      have hr := cWalk_pres (fun s => s.next_check) Poll.PNext (Poll.poll_refresh_body beh)
        (fun s k => (poll_refresh_body_pres beh s k).1) fuel { st with npolled := 0 } st.links
      simpa [Poll.fillRevents] using hr
    have hheap : ∀ m,
        ((((if 0 < Poll.countReady os
          (cWalk Poll.PNext (Poll.poll_refresh_body beh) fuel { st with npolled := 0 }
            st.links).npolled then
        cWalk Poll.PNext (Poll.poll_dispatch_body beh) fuel
          (Poll.fillRevents
            (cWalk Poll.PNext (Poll.poll_refresh_body beh) fuel { st with npolled := 0 }
              st.links) os
            (cWalk Poll.PNext (Poll.poll_refresh_body beh) fuel { st with npolled := 0 }
              st.links).npolled)
          st.links
      else
        Poll.fillRevents
          (cWalk Poll.PNext (Poll.poll_refresh_body beh) fuel { st with npolled := 0 }
            st.links) os
          (cWalk Poll.PNext (Poll.poll_refresh_body beh) fuel { st with npolled := 0 }
            st.links).npolled)).heap m).next = (st.heap m).next) ∧
        ((((if 0 < Poll.countReady os
          (cWalk Poll.PNext (Poll.poll_refresh_body beh) fuel { st with npolled := 0 }
            st.links).npolled then
        cWalk Poll.PNext (Poll.poll_dispatch_body beh) fuel
          (Poll.fillRevents
            (cWalk Poll.PNext (Poll.poll_refresh_body beh) fuel { st with npolled := 0 }
              st.links) os
            (cWalk Poll.PNext (Poll.poll_refresh_body beh) fuel { st with npolled := 0 }
              st.links).npolled)
          st.links
      else
        Poll.fillRevents
          (cWalk Poll.PNext (Poll.poll_refresh_body beh) fuel { st with npolled := 0 }
            st.links) os
          (cWalk Poll.PNext (Poll.poll_refresh_body beh) fuel { st with npolled := 0 }
            st.links).npolled)).heap m).prev = (st.heap m).prev) ∧
        ((((if 0 < Poll.countReady os
          (cWalk Poll.PNext (Poll.poll_refresh_body beh) fuel { st with npolled := 0 }
            st.links).npolled then
        cWalk Poll.PNext (Poll.poll_dispatch_body beh) fuel
          (Poll.fillRevents
            (cWalk Poll.PNext (Poll.poll_refresh_body beh) fuel { st with npolled := 0 }
              st.links) os
            (cWalk Poll.PNext (Poll.poll_refresh_body beh) fuel { st with npolled := 0 }
              st.links).npolled)
          st.links
      else
        Poll.fillRevents
          (cWalk Poll.PNext (Poll.poll_refresh_body beh) fuel { st with npolled := 0 }
            st.links) os
          (cWalk Poll.PNext (Poll.poll_refresh_body beh) fuel { st with npolled := 0 }
            st.links).npolled)).heap m).handler = (st.heap m).handler) := by
      by_cases hd : 0 < Poll.countReady os
          (cWalk Poll.PNext (Poll.poll_refresh_body beh) fuel { st with npolled := 0 }
            st.links).npolled
      · rw [if_pos hd] at hfr ⊢
        have hstab := cWalk_stable (fun s => s.freed)
          (fun s => (fun m => ((s.heap m).next, (s.heap m).prev, (s.heap m).handler)))
          Poll.PNext (Poll.poll_dispatch_body beh)
          (fun s k => poll_dispatch_body_freed_ext beh s k)
          (fun s k hfq => by
            funext m2
            simp only [poll_dispatch_body_nofree beh s k hfq])
          fuel (Poll.fillRevents
        (cWalk Poll.PNext (Poll.poll_refresh_body beh) fuel { st with npolled := 0 }
          st.links) os
        (cWalk Poll.PNext (Poll.poll_refresh_body beh) fuel { st with npolled := 0 }
          st.links).npolled) st.links (hfr.trans hfill.symm)
        intro m
        have hm := congrFun hstab m
        simp only [Prod.mk.injEq] at hm
        exact ⟨hm.1.trans (hh3 m).1, hm.2.1.trans (hh3 m).2.1, hm.2.2.trans (hh3 m).2.2⟩
      · rw [if_neg hd]
        exact hh3
    have hdll4 : dllB (fun m => (((if 0 < Poll.countReady os
          (cWalk Poll.PNext (Poll.poll_refresh_body beh) fuel { st with npolled := 0 }
            st.links).npolled then
        cWalk Poll.PNext (Poll.poll_dispatch_body beh) fuel
          (Poll.fillRevents
            (cWalk Poll.PNext (Poll.poll_refresh_body beh) fuel { st with npolled := 0 }
              st.links) os
            (cWalk Poll.PNext (Poll.poll_refresh_body beh) fuel { st with npolled := 0 }
              st.links).npolled)
          st.links
      else
        Poll.fillRevents
          (cWalk Poll.PNext (Poll.poll_refresh_body beh) fuel { st with npolled := 0 }
            st.links) os
          (cWalk Poll.PNext (Poll.poll_refresh_body beh) fuel { st with npolled := 0 }
            st.links).npolled)).heap m).next)
        (fun m => (((if 0 < Poll.countReady os
          (cWalk Poll.PNext (Poll.poll_refresh_body beh) fuel { st with npolled := 0 }
            st.links).npolled then
        cWalk Poll.PNext (Poll.poll_dispatch_body beh) fuel
          (Poll.fillRevents
            (cWalk Poll.PNext (Poll.poll_refresh_body beh) fuel { st with npolled := 0 }
              st.links) os
            (cWalk Poll.PNext (Poll.poll_refresh_body beh) fuel { st with npolled := 0 }
              st.links).npolled)
          st.links
      else
        Poll.fillRevents
          (cWalk Poll.PNext (Poll.poll_refresh_body beh) fuel { st with npolled := 0 }
            st.links) os
          (cWalk Poll.PNext (Poll.poll_refresh_body beh) fuel { st with npolled := 0 }
            st.links).npolled)).heap m).prev) none st.links l = true := by
      rw [dllB_congr (fun m => (((if 0 < Poll.countReady os
          (cWalk Poll.PNext (Poll.poll_refresh_body beh) fuel { st with npolled := 0 }
            st.links).npolled then
        cWalk Poll.PNext (Poll.poll_dispatch_body beh) fuel
          (Poll.fillRevents
            (cWalk Poll.PNext (Poll.poll_refresh_body beh) fuel { st with npolled := 0 }
              st.links) os
            (cWalk Poll.PNext (Poll.poll_refresh_body beh) fuel { st with npolled := 0 }
              st.links).npolled)
          st.links
      else
        Poll.fillRevents
          (cWalk Poll.PNext (Poll.poll_refresh_body beh) fuel { st with npolled := 0 }
            st.links) os
          (cWalk Poll.PNext (Poll.poll_refresh_body beh) fuel { st with npolled := 0 }
            st.links).npolled)).heap m).next)
        (fun m => (((if 0 < Poll.countReady os
          (cWalk Poll.PNext (Poll.poll_refresh_body beh) fuel { st with npolled := 0 }
            st.links).npolled then
        cWalk Poll.PNext (Poll.poll_dispatch_body beh) fuel
          (Poll.fillRevents
            (cWalk Poll.PNext (Poll.poll_refresh_body beh) fuel { st with npolled := 0 }
              st.links) os
            (cWalk Poll.PNext (Poll.poll_refresh_body beh) fuel { st with npolled := 0 }
              st.links).npolled)
          st.links
      else
        Poll.fillRevents
          (cWalk Poll.PNext (Poll.poll_refresh_body beh) fuel { st with npolled := 0 }
            st.links) os
          (cWalk Poll.PNext (Poll.poll_refresh_body beh) fuel { st with npolled := 0 }
            st.links).npolled)).heap m).prev)
        (fun m => (st.heap m).next) (fun m => (st.heap m).prev) l none st.links
        (fun m _ => ⟨(hheap m).1, (hheap m).2.1⟩)]
      exact hdll
    have hcov := poll_sweep_walk_cov beh l fuel
      ((if 0 < Poll.countReady os
          (cWalk Poll.PNext (Poll.poll_refresh_body beh) fuel { st with npolled := 0 }
            st.links).npolled then
        cWalk Poll.PNext (Poll.poll_dispatch_body beh) fuel
          (Poll.fillRevents
            (cWalk Poll.PNext (Poll.poll_refresh_body beh) fuel { st with npolled := 0 }
              st.links) os
            (cWalk Poll.PNext (Poll.poll_refresh_body beh) fuel { st with npolled := 0 }
              st.links).npolled)
          st.links
      else
        Poll.fillRevents
          (cWalk Poll.PNext (Poll.poll_refresh_body beh) fuel { st with npolled := 0 }
            st.links) os
          (cWalk Poll.PNext (Poll.poll_refresh_body beh) fuel { st with npolled := 0 }
            st.links).npolled)) none st.links hdll4 hnd rfl hf n hn
      (by rw [(hheap n).2.2]; exact hck)
    rw [goeq]
    simp only
    rw [if_pos (by rw [hnc4]; exact hle)]
    exact hcov
  · exact upd
  · intro fuel1 beh1 os1 now1 now1q now2 st h1 h12 h2
    have h4 := upd fuel1 beh1 os1 now1 now1q st h1
    rw [h4] at h2
    linarith

/-- C7 counterexample: Link 1 is in the tick-start snapshot [0, 1] and its
handler defines check, yet after dispatch unregisters it (read returned
false) the same tick's due sweep, walking the stale snapshot whose mutated
next pointers now bypass Link 1, never invokes its check: the claim's "for
every snapshot Link whose handler defines check" fails. -/
theorem C7_sweep_counterexample :
    chainB (fun m => (c7Pre.heap m).next) c7Pre.links [0, 1] = true ∧
    (c7Pre.heap 1).handler.hasCheck = true ∧
    Event.callCheck 0 true ∈ c7Run.trace ∧
    Event.callCheck 1 true ∉ c7Run.trace ∧
    Event.callCheck 1 false ∉ c7Run.trace ∧
    1 ∈ c7Run.freed := by
  decide

end Agoo
